import Mathlib

/-!
# Shared-library port layer: `port/unix/omrsl.c`

A shallow embedding of the Unix shared-library functions of the OMR port
library (`omrsl_open_shared_library`, `omrsl_close_shared_library`,
`getDLError`, `convertWithMBTOWC`, `omrsl_get_libraries`) together with the
properties established about them.

Conventions of the embedding.

* A C string is the list of its bytes before the terminating NUL, so the
  test `'\0' != *walk` is the test that the list is not empty; bytes are
  natural numbers below 256.
* A `char` buffer is a function from index to byte (`Mem`).  Indices at or
  beyond the declared length of the buffer stand for the memory that follows
  it, so a write past the end is visible as a change of the function there.
* Calls into the operating system, the C library and the other port-library
  services are oracles.  Every such call is appended to a trace of events, and
  an oracle sees the trace of the calls made before it, so the answer of a
  repeated call may differ from the first one.
* Constants that come from headers (`omrport.h`, `dlfcn.h`, ...) are fields of
  `Config`; nothing is assumed about their values.
* Lengths stay far below the range of `uintptr_t`, so the arithmetic on them
  is that of the natural numbers.
* The `Trc_PRT_*` trace points never influence control flow and are left out.
-/

namespace Omrsl

/-- Bytes of a C string, terminator excluded. -/
abbrev Bytes := List Nat

/-- Contents of a `char` buffer, by index from the start of the buffer. -/
abbrev Mem := Nat → Nat

/-- Store of one byte: `m[i] = v`. -/
def poke (m : Mem) (i v : Nat) : Mem := fun j => if j = i then v else m j

/-- Bytes of a string literal. -/
def bytes (s : String) : Bytes := s.toList.map Char.toNat

/-- Length of string buffers (`MAX_STRING_LENGTH`). -/
def MAX_STRING_LENGTH : Nat := 1024

/-- Length of error buffers (`MAX_ERR_BUF_LENGTH`). -/
def MAX_ERR_BUF_LENGTH : Nat := 512

/-- Width of `uintptr_t` in bits. -/
def UINTPTR_BITS : Nat := 64

/-- Conversion of a signed integer to `uintptr_t`. -/
def toUintptr (x : Int) : Nat := (x % (2 : Int) ^ UINTPTR_BITS).toNat

/-- Build configuration: the platform macros of `omrsl.c` and the constants it
takes from headers that are not part of this file. -/
structure Config where
  /-- `PLATFORM_DLL_EXTENSION`: `".so"`, or `".dylib"` on OSX. -/
  PLATFORM_DLL_EXTENSION : Bytes
  /-- Whether `OMR_HAVE_DLADDR` is defined. -/
  OMR_HAVE_DLADDR : Bool
  /-- Whether plain `char` is a signed type on the platform. -/
  charSigned : Bool
  RTLD_LAZY : Nat
  RTLD_NOW : Nat
  RTLD_NOLOAD : Nat
  OMRPORT_SLOPEN_DECORATE : Nat
  OMRPORT_SLOPEN_LAZY : Nat
  OMRPORT_SLOPEN_OPEN_EXECUTABLE : Nat
  OMRPORT_SLOPEN_NO_LOAD : Nat
  OMRPORT_SL_NOT_FOUND : Nat
  OMRPORT_SL_INVALID : Nat
  OMRPORT_SL_UNSUPPORTED : Nat
  EsIsFile : Int
  OMRPORT_ERROR_OPFAILED : Int
  OMRPORT_ERROR_NOT_SUPPORTED_ON_THIS_PLATFORM : Int

/-- Modelled from the spec: the macro `OMR_ARE_ALL_BITS_SET(value, bits)`,
which is not defined in this file.  The open flags are "a bitset with
recognized options"; the macro tests that every bit of `bits` is set in
`value`. -/
def OMR_ARE_ALL_BITS_SET (value bits : Nat) : Bool := (value &&& bits) == bits

/-! ## C library string functions -/

/-- The library function `strlen`. -/
def strlen (s : Bytes) : Nat := s.length

/-- Scan of `strrchr`: `i` is the index of the head of the list, `last` the
index of the latest match seen so far. -/
def strrchrFrom (c : Nat) : Bytes → Nat → Option Nat → Option Nat
  | [], _, last => last
  | b :: rest, i, last => strrchrFrom c rest (i + 1) (if b = c then some i else last)

/-- The library function `strrchr`: index of the last occurrence of `c`, or
`none` for a null result. -/
def strrchr (s : Bytes) (c : Nat) : Option Nat := strrchrFrom c s 0 none

/-- The library function `strncpy(dst, src, n)`: the first `n` bytes of `dst`
receive the string `src`, padded with NUL bytes when `src` is shorter. -/
def strncpy (dst : Mem) (src : Bytes) (n : Nat) : Mem :=
  fun i => if i < n then src.getD i 0 else dst i

/-- The C string found in a buffer, reading at most `n` bytes from index `i`. -/
def readFrom (m : Mem) : Nat → Nat → Bytes
  | 0, _ => []
  | n + 1, i => if m i = 0 then [] else m i :: readFrom m n (i + 1)

/-- The C string at the start of a buffer of `n` bytes. -/
def readCStr (m : Mem) (n : Nat) : Bytes := readFrom m n 0

/-! ## Error-text conversion: `convertWithMBTOWC` -/

/-- Value of the expression `*walk` (a plain `char`) assigned to a `wchar_t`.
Where `char` is signed, `wchar_t` is a signed type as well (x86 Linux, OSX),
so a byte of `0x80` or more becomes a negative character. -/
def charValue (cfg : Config) (b : Nat) : Int :=
  if cfg.charSigned = true ∧ 128 ≤ b then (b : Int) - 256 else (b : Int)

/-- The cast `(char)x` of a wide character, as the byte that is stored. -/
def toChar (x : Int) : Nat := (x % 256).toNat

/-- Lines 369-377: the loop test and the decoding of the next character.
`mbtowc walk` is the pair (return value, decoded character) of
`mbtowc(&ch, walk, MB_CUR_MAX)`.  `none` means the loop is left (end of the
string, or `mbtowc` returned 0); otherwise the character and the advanced
`walk`. -/
def decodeStep (cfg : Config) (mbtowc : Bytes → Int × Int) (walk : Bytes) :
    Option (Int × Bytes) :=
  match walk with
  | [] => none
  | b :: rest =>
    if (mbtowc walk).1 < 0 then some (charValue cfg b, rest)
    else if (mbtowc walk).1 = 0 then none
    else some ((mbtowc walk).2, walk.drop (mbtowc walk).1.toNat)

/-- Lines 385-403: the three-tier encoder writing at `out`.  `none` is the
`break` taken when the encoding does not fit before `end`.  In the second and
third tier `ch` is at least `0x80`, so the shifts and masks are taken on the
natural number. -/
def encodeStep (endp : Nat) (ch : Int) (out : Nat) (mem : Mem) : Option (Nat × Mem) :=
  if ch < 0x80 then
    if out + 1 > endp then none
    else some (out + 1, poke mem out (toChar ch))
  else if ch < 0x800 then
    if out + 2 > endp then none
    else
      let m1 := poke mem out ((0xc0 ||| ((ch.toNat >>> 6) &&& 0x1f)) % 256)
      let m2 := poke m1 (out + 1) ((0x80 ||| (ch.toNat &&& 0x3f)) % 256)
      some (out + 2, m2)
  else
    if out + 3 > endp then none
    else
      let m1 := poke mem out ((0xe0 ||| ((ch.toNat >>> 12) &&& 0x0f)) % 256)
      let m2 := poke m1 (out + 1) ((0x80 ||| ((ch.toNat >>> 6) &&& 0x3f)) % 256)
      let m3 := poke m2 (out + 2) ((0x80 ||| (ch.toNat &&& 0x3f)) % 256)
      some (out + 3, m3)

/-- Lines 369-404: the `while` loop.  The first argument bounds the number of
iterations; `none` means the bound was reached before the loop ended.  The
result is the final `out` and buffer. -/
def convertLoop (cfg : Config) (mbtowc : Bytes → Int × Int) (endp : Nat) :
    Nat → Bytes → Nat → Mem → Option (Nat × Mem)
  | 0, _, _, _ => none
  | fuel + 1, walk, out, mem =>
    match decodeStep cfg mbtowc walk with
    | none => some (out, mem)
    | some (ch, walk1) =>
      if ch = 13 then convertLoop cfg mbtowc endp fuel walk1 out mem
      else
        match encodeStep endp (if ch = 10 then 32 else ch) out mem with
        | none => some (out, mem)
        | some (out1, mem1) => convertLoop cfg mbtowc endp fuel walk1 out1 mem1

/-- The function `convertWithMBTOWC(portLibrary, error, errBuf, bufLen)`: the
buffer after the call.  Every iteration consumes at least one byte of `error`,
so `error.length + 1` iterations are allowed. -/
def convertWithMBTOWC (cfg : Config) (mbtowc : Bytes → Int × Int) (error : Bytes)
    (errBuf : Mem) (bufLen : Nat) : Option Mem :=
  match convertLoop cfg mbtowc (bufLen - 1) (error.length + 1) error 0 errBuf with
  | none => none
  | some (out, mem) => some (poke mem out 0)

/-- A decoder for a locale whose only characters are ASCII: a byte below
`0x80` decodes to itself, any other byte is rejected with `-1`. -/
def mbtowcAscii (walk : Bytes) : Int × Int :=
  match walk with
  | [] => (0, 0)
  | b :: _ => if b < 128 then (1, (b : Int)) else (-1, 0)


/-! ## Operating-system and port-library calls -/

/-- One call made by the shared-library functions, with its arguments and the
answer it received. -/
inductive Event where
  | dlopen (file : Option Bytes) (mode : Nat) (handle : Nat)
  | dlclose (handle : Nat) (rc : Int)
  | dladdr (fname : Option Bytes)
  | dlerror (text : Option Bytes)
  | file_attr (path : Bytes) (attr : Int)
  | nls_lookup_message (defaultText : Bytes) (text : Bytes)
  | error_set_last_error_with_message (code : Int) (message : Bytes) (rv : Int)
  | tty_printf (result : Nat) (message : Bytes)
  deriving DecidableEq, Repr

/-- The functions reached through `portLibrary` and the C library calls of
this file.  The first argument of each is the trace of the calls made so far.
`dlopen` and `dlerror` answer 0 and `none` for a null pointer; `dladdr` answers
`none` for a zero return code and otherwise `dli_fname`.  The message looked
up by `nls_lookup_message` is identified by its default text. -/
structure OMRPortLibrary where
  dlopen : List Event → Option Bytes → Nat → Nat
  dlclose : List Event → Nat → Int
  dladdr : List Event → Option Bytes
  dlerror : List Event → Option Bytes
  mbtowc : Bytes → Int × Int
  file_attr : List Event → Bytes → Int
  nls_lookup_message : List Event → Bytes → Bytes
  error_set_last_error_with_message : List Event → Int → Bytes → Int

/-- Lines 290-298 and 192-197 share this shape: `strncpy` of a looked-up
message into the buffer followed by the store of a NUL in its last byte. -/
def copyMessage (errBuf : Mem) (error : Bytes) (bufLen : Nat) : Mem :=
  poke (strncpy errBuf error bufLen) (bufLen - 1) 0

/-- The function `getDLError(portLibrary, errBuf, bufLen)` in the build that
defines `J9VM_USE_MBTOWC`: the buffer and the trace after the call. -/
def getDLError (cfg : Config) (pl : OMRPortLibrary) (tr : List Event) (errBuf : Mem)
    (bufLen : Nat) : Option (Mem × List Event) :=
  if bufLen = 0 then some (errBuf, tr)
  else
    let error := pl.dlerror tr
    let tr1 := tr ++ [Event.dlerror error]
    if error = none ∨ error = some [] then
      let text := pl.nls_lookup_message tr1 (bytes "Unknown error")
      some (copyMessage errBuf text bufLen,
        tr1 ++ [Event.nls_lookup_message (bytes "Unknown error") text])
    else
      match convertWithMBTOWC cfg pl.mbtowc (error.getD []) errBuf bufLen with
      | none => none
      | some mem => some (mem, tr1)

/-! ## Closing and opening a library -/

/-- The function `omrsl_close_shared_library(portLibrary, descriptor)`: the
returned value and the trace after the call.  `errBuf` is the initial content
of the local error buffer. -/
def omrsl_close_shared_library (cfg : Config) (pl : OMRPortLibrary) (tr : List Event)
    (errBuf : Mem) (descriptor : Nat) : Option (Nat × List Event) :=
  let result : Nat := 1
  if 0 ≠ descriptor then
    let rc := pl.dlclose tr descriptor
    let result := toUintptr rc
    let tr1 := tr ++ [Event.dlclose descriptor rc]
    if 0 ≠ result then
      match getDLError cfg pl tr1 errBuf MAX_ERR_BUF_LENGTH with
      | none => none
      | some (buf, tr2) =>
        some (result, tr2 ++ [Event.tty_printf result (readCStr buf MAX_ERR_BUF_LENGTH)])
    else some (result, tr1)
  else some (result, tr)

/-- Modelled from the spec: `str_printf` of the port library, which is not
part of this file, "a formatted-string-into-bounded-buffer composer (returns
the would-be length and truncates safely)".  `text` is the complete formatted
text; the result is the returned length and the string left in a buffer of
`bufLen` bytes. -/
def str_printf (bufLen : Nat) (text : Bytes) : Nat × Bytes :=
  (text.length, text.take (bufLen - 1))

/-- Lines 150-156: the two `str_printf` calls composing `mangledName`, with the
formats `"%.*slib%s" PLATFORM_DLL_EXTENSION` and `"lib%s" PLATFORM_DLL_EXTENSION`.
The result is `pathLength` and the content of `mangledName`. -/
def mangle (cfg : Config) (name : Bytes) : Nat × Bytes :=
  match strrchr name 47 with
  | some p =>
    str_printf (MAX_STRING_LENGTH + 1)
      (name.take (p + 1) ++ bytes "lib" ++ name.drop (p + 1) ++ cfg.PLATFORM_DLL_EXTENSION)
  | none =>
    str_printf (MAX_STRING_LENGTH + 1) (bytes "lib" ++ name ++ cfg.PLATFORM_DLL_EXTENSION)

/-- Outcome of the load attempts of lines 174-211. -/
inductive LoadOutcome where
  /-- The path below the port library directory does not fit `portLibDir`. -/
  | exceeded (tr : List Event)
  /-- The value of `handle` on reaching line 213. -/
  | loaded (handle : Nat) (tr : List Event)

/-- Lines 174-211: the load of `openName` and, where `OMR_HAVE_DLADDR` is
defined, the retry in the directory of the port library. -/
def loadLibrary (cfg : Config) (pl : OMRPortLibrary) (tr : List Event) (openName : Bytes)
    (openExec : Bool) (lazyOrNow : Nat) : LoadOutcome :=
  let file := if openExec then none else some openName
  let handle := pl.dlopen tr file lazyOrNow
  let tr1 := tr ++ [Event.dlopen file lazyOrNow handle]
  if cfg.OMR_HAVE_DLADDR = true ∧ handle = 0 ∧ openExec = false then
    let info := pl.dladdr tr1
    let tr2 := tr1 ++ [Event.dladdr info]
    match info with
    | none => LoadOutcome.loaded handle tr2
    | some dli_fname =>
      match strrchr dli_fname 47 with
      | none => LoadOutcome.loaded handle tr2
      | some dirSep =>
        let pathLength := dirSep + 1
        if MAX_STRING_LENGTH < pathLength + strlen openName + 1 then LoadOutcome.exceeded tr2
        else
          let portLibDir := dli_fname.take pathLength ++ openName
          let handle1 := pl.dlopen tr2 (some portLibDir) lazyOrNow
          let tr3 := tr2 ++ [Event.dlopen (some portLibDir) lazyOrNow handle1]
          if handle1 = 0 then
            let handle2 := pl.dlopen tr3 (some openName) lazyOrNow
            LoadOutcome.loaded handle2 (tr3 ++ [Event.dlopen (some openName) lazyOrNow handle2])
          else LoadOutcome.loaded handle1 tr3
  else LoadOutcome.loaded handle tr1

/-- What `omrsl_open_shared_library` leaves behind: the returned value, the
value stored through `descriptor` (if the store is reached) and the trace. -/
structure OpenResult where
  rv : Nat
  descriptor : Option Nat
  trace : List Event
  deriving DecidableEq, Repr

/-- Text of the message looked up at lines 192-195. -/
def bufferExceededText : Bytes :=
  bytes "Insufficient buffer memory while attempting to load a shared library"

/-- Lines 213-223: the failure exit after the load attempts left a null
handle. -/
def reportLoadFailure (cfg : Config) (pl : OMRPortLibrary) (tr : List Event) (errBuf : Mem)
    (openName : Bytes) : Option OpenResult :=
  match getDLError cfg pl tr errBuf MAX_ERR_BUF_LENGTH with
  | none => none
  | some (buf, tr1) =>
    let message := readCStr buf MAX_ERR_BUF_LENGTH
    let attr := pl.file_attr tr1 openName
    let tr2 := tr1 ++ [Event.file_attr openName attr]
    if cfg.EsIsFile = attr then
      let rv := pl.error_set_last_error_with_message tr2 cfg.OMRPORT_SL_INVALID message
      some ⟨toUintptr rv, none,
        tr2 ++ [Event.error_set_last_error_with_message cfg.OMRPORT_SL_INVALID message rv]⟩
    else
      let rv := pl.error_set_last_error_with_message tr2 cfg.OMRPORT_SL_NOT_FOUND message
      some ⟨toUintptr rv, none,
        tr2 ++ [Event.error_set_last_error_with_message cfg.OMRPORT_SL_NOT_FOUND message rv]⟩

/-- The function `omrsl_open_shared_library(portLibrary, name, descriptor,
flags)`.  `errBuf` is the initial content of the local error buffer. -/
def omrsl_open_shared_library (cfg : Config) (pl : OMRPortLibrary) (tr : List Event)
    (errBuf : Mem) (name : Bytes) (flags : Nat) : Option OpenResult :=
  let lazyOrNow :=
    if OMR_ARE_ALL_BITS_SET flags cfg.OMRPORT_SLOPEN_LAZY then cfg.RTLD_LAZY else cfg.RTLD_NOW
  let decorate := OMR_ARE_ALL_BITS_SET flags cfg.OMRPORT_SLOPEN_DECORATE
  let openExec := OMR_ARE_ALL_BITS_SET flags cfg.OMRPORT_SLOPEN_OPEN_EXECUTABLE
  let openNoLoad := OMR_ARE_ALL_BITS_SET flags cfg.OMRPORT_SLOPEN_NO_LOAD
  if (!openExec && decorate) = true ∧ (mangle cfg name).1 ≥ MAX_STRING_LENGTH then
    some ⟨cfg.OMRPORT_SL_UNSUPPORTED, none, tr⟩
  else
    let openName := if (!openExec && decorate) = true then (mangle cfg name).2 else name
    let file := if openExec then none else some openName
    if openNoLoad = true then
      let handle := pl.dlopen tr file (cfg.RTLD_NOLOAD ||| lazyOrNow)
      some ⟨0, some handle, tr ++ [Event.dlopen file (cfg.RTLD_NOLOAD ||| lazyOrNow) handle]⟩
    else
      match loadLibrary cfg pl tr openName openExec lazyOrNow with
      | LoadOutcome.exceeded tr1 =>
        let error := pl.nls_lookup_message tr1 bufferExceededText
        let tr2 := tr1 ++ [Event.nls_lookup_message bufferExceededText error]
        let message := readCStr (copyMessage errBuf error MAX_ERR_BUF_LENGTH) MAX_ERR_BUF_LENGTH
        let rv := pl.error_set_last_error_with_message tr2 cfg.OMRPORT_SL_INVALID message
        some ⟨toUintptr rv, none,
          tr2 ++ [Event.error_set_last_error_with_message cfg.OMRPORT_SL_INVALID message rv]⟩
      | LoadOutcome.loaded handle tr1 =>
        if handle = 0 then reportLoadFailure cfg pl tr1 errBuf openName
        else some ⟨0, some handle, tr1⟩

/-! ## Enumeration of the loaded libraries: `omrsl_get_libraries` -/

/-- What the enumeration does that can be observed from outside. -/
inductive LibEvent where
  | file_open (fd : Int)
  | error_set_last_error_with_message (code : Int) (message : Bytes)
  | callback (path : Bytes) (addrLow addrHigh : Nat) (result : Nat)
  | file_close (fd : Int)
  deriving DecidableEq, Repr

/-- The visitor `OMRLibraryInfoCallback`: from the path, the two addresses and
the current `userData` to its result and the `userData` it leaves. -/
abbrev Callback (σ : Type) := Bytes → Nat → Nat → σ → Nat × σ

/-- What the caller reads of the results of
`sscanf(buffer, "%p-%p %4s %lx %x:%x %lu %n", ...)`. -/
structure ScanResult where
  count : Int
  addrLow : Nat
  addrHigh : Nat
  pathOffset : Nat
  deriving DecidableEq, Repr

/-- The services used by the Linux enumeration: the descriptor answered by
`file_open` for `/proc/self/maps`, the buffers filled by the successive
`file_read_text` calls before it answers `NULL`, `error_last_error_number`
and the C library function `sscanf` for the format of the map lines. -/
structure MapsFile where
  fd : Int
  lines : List Bytes
  error_last_error_number : List LibEvent → Int
  sscanf : Bytes → ScanResult

/-- Text of the message set for a line without terminator. -/
def truncatedLineText : Bytes := bytes "An unexpected long path name. Line is truncated."

/-- Lines 496-516: the `while` loop over the lines.  The result is the final
`result`, the final `userData` and the trace. -/
def readMaps {σ : Type} (env : MapsFile) (callback : Callback σ) :
    List Bytes → Nat → σ → List LibEvent → Nat × σ × List LibEvent
  | [], result, userData, tr => (result, userData, tr)
  | buffer :: rest, result, userData, tr =>
    if 10 ∉ buffer then
      let portableError := env.error_last_error_number tr
      readMaps env callback rest result userData
        (tr ++ [LibEvent.error_set_last_error_with_message portableError truncatedLineText])
    else
      let scan := env.sscanf buffer
      if scan.count = 7 ∧ buffer.getD scan.pathOffset 0 = 47 then
        let r := callback (buffer.drop scan.pathOffset) scan.addrLow scan.addrHigh userData
        let tr1 := tr ++
          [LibEvent.callback (buffer.drop scan.pathOffset) scan.addrLow scan.addrHigh r.1]
        if 0 ≠ r.1 then (r.1, r.2, tr1)
        else readMaps env callback rest r.1 r.2 tr1
      else readMaps env callback rest result userData tr

/-- The function `omrsl_get_libraries(portLibrary, callback, userData)` of the
build that defines `LINUX`; a null `callback` is `none`. -/
def omrsl_get_libraries_linux {σ : Type} (cfg : Config) (env : MapsFile)
    (callback : Option (Callback σ)) (userData : σ) : Nat × σ × List LibEvent :=
  match callback with
  | none =>
    (toUintptr cfg.OMRPORT_ERROR_OPFAILED, userData,
      [LibEvent.error_set_last_error_with_message cfg.OMRPORT_ERROR_OPFAILED
        (bytes "Callback function is NULL.")])
  | some cb =>
    if env.fd = -1 then
      let portableError := env.error_last_error_number [LibEvent.file_open env.fd]
      (toUintptr portableError, userData,
        [LibEvent.file_open env.fd,
         LibEvent.error_set_last_error_with_message portableError
          (bytes "Failed to open /proc/self/maps")])
    else
      let r := readMaps env cb env.lines 0 userData [LibEvent.file_open env.fd]
      (r.1, r.2.1, r.2.2 ++ [LibEvent.file_close env.fd])

/-- The constant `MH_MAGIC_64` of `<mach-o/loader.h>`. -/
def MH_MAGIC_64 : Nat := 0xfeedfacf

/-- The constant `LC_SEGMENT_64` of `<mach-o/loader.h>`. -/
def LC_SEGMENT_64 : Nat := 0x19

/-- A load command; `vmaddr` and `vmsize` are the fields read when the command
is a `segment_command_64`. -/
structure LoadCommand where
  cmd : Nat
  cmdsize : Nat
  vmaddr : Nat
  vmsize : Nat

/-- A `mach_header_64` with what follows it: `commands k` is the load command
reached after `k` steps of `lc = lc + lc->cmdsize` from `header + 1`. -/
structure MachHeader where
  magic : Nat
  ncmds : Nat
  commands : Nat → LoadCommand

/-- What dyld answers for one image index: `_dyld_get_image_name`,
`_dyld_get_image_header` (`none` for a null pointer) and
`_dyld_get_image_vmaddr_slide`. -/
structure Image where
  name : Option Bytes
  header : Option MachHeader
  slide : Int

/-- Lines 544-558: the loop over the load commands of one image; the first
argument is `header->ncmds - cmd` and the second `cmd`.  The first component
of the result is the value of the `return result` inside the loop, if it is
taken. -/
def walkCommands {σ : Type} (callback : Callback σ) (imageName : Bytes) (slide : Int)
    (commands : Nat → LoadCommand) :
    Nat → Nat → σ → List LibEvent → Option Nat × σ × List LibEvent
  | 0, _, userData, tr => (none, userData, tr)
  | n + 1, cmd, userData, tr =>
    if 0 = (commands cmd).cmdsize then (none, userData, tr)
    else if LC_SEGMENT_64 = (commands cmd).cmd then
      let addrLow := (((commands cmd).vmaddr : Int) + slide) % (2 : Int) ^ 64
      let addrHigh := (addrLow.toNat + (commands cmd).vmsize) % 2 ^ 64
      let r := callback imageName addrLow.toNat addrHigh userData
      let tr1 := tr ++ [LibEvent.callback imageName addrLow.toNat addrHigh r.1]
      if 0 ≠ r.1 then (some r.1, r.2, tr1)
      else walkCommands callback imageName slide commands n (cmd + 1) r.2 tr1
    else walkCommands callback imageName slide commands n (cmd + 1) userData tr

/-- Lines 529-560: the loop over the images. -/
def walkImages {σ : Type} (callback : Callback σ) :
    List Image → σ → List LibEvent → Nat × σ × List LibEvent
  | [], userData, tr => (0, userData, tr)
  | image :: rest, userData, tr =>
    match image.name with
    | none => walkImages callback rest userData tr
    | some imageName =>
      if 47 ≠ imageName.getD 0 0 then walkImages callback rest userData tr
      else
        match image.header with
        | none => walkImages callback rest userData tr
        | some header =>
          if MH_MAGIC_64 ≠ header.magic then walkImages callback rest userData tr
          else
            match walkCommands callback imageName image.slide header.commands
                header.ncmds 0 userData tr with
            | (some result, userData1, tr1) => (result, userData1, tr1)
            | (none, userData1, tr1) => walkImages callback rest userData1 tr1

/-- The function `omrsl_get_libraries(portLibrary, callback, userData)` of the
build that defines `OSX`; `images` are the images with index below
`_dyld_image_count()`. -/
def omrsl_get_libraries_osx {σ : Type} (cfg : Config) (images : List Image)
    (callback : Option (Callback σ)) (userData : σ) : Nat × σ × List LibEvent :=
  match callback with
  | none =>
    (toUintptr cfg.OMRPORT_ERROR_OPFAILED, userData,
      [LibEvent.error_set_last_error_with_message cfg.OMRPORT_ERROR_OPFAILED
        (bytes "Callback function is NULL.")])
  | some cb => walkImages cb images userData []

/-- The function `omrsl_get_libraries` of a build that defines neither `LINUX`
nor `OSX`. -/
def omrsl_get_libraries_other (cfg : Config) : Nat :=
  toUintptr cfg.OMRPORT_ERROR_NOT_SUPPORTED_ON_THIS_PLATFORM

/-! ## The C library function `sscanf` on the format of the map lines

A model of `sscanf(buffer, "%p-%p %4s %lx %x:%x %lu %n", ...)` as the GNU C
library reads it.  A conversion skips leading white space.  An integer
conversion takes an optional sign; then either a `0`, for base 16 an `x` or
`X` after it if there is one, and the digits that follow, if any; or else a
run of digits that must not be empty.  `%p` is read as a number of base 16
and, where no sign and no digit was read, also accepts `(nil)` for the null
pointer.  The value is the one `strtoul` gives the characters read.  A
literal character must match; the white space directive skips any white
space.  Fields that were not assigned are reported as 0; the caller reads
them only when the count is 7. -/

/-- The C library predicate `isspace` in the "C" locale. -/
def isspace (c : Nat) : Bool := c == 32 || (9 ≤ c && c ≤ 13)

/-- Value of a hexadecimal digit. -/
def hexDigit (c : Nat) : Option Nat :=
  if 48 ≤ c ∧ c ≤ 57 then some (c - 48)
  else if 97 ≤ c ∧ c ≤ 102 then some (c - 87)
  else if 65 ≤ c ∧ c ≤ 70 then some (c - 55)
  else none

/-- Value of a decimal digit. -/
def decDigit (c : Nat) : Option Nat :=
  if 48 ≤ c ∧ c ≤ 57 then some (c - 48) else none

/-- The longest run of digits at the head of the input: how many there are,
their value after the digits already read, and the input that follows. -/
def scanDigits (digit : Nat → Option Nat) (base : Nat) : Bytes → Nat → Nat → Nat × Nat × Bytes
  | [], n, acc => (n, acc, [])
  | c :: rest, n, acc =>
    match digit c with
    | some d => scanDigits digit base rest (n + 1) (acc * base + d)
    | none => (n, acc, c :: rest)

/-- The value `strtoul` gives digits of value `v`, after a minus sign when
`negative`: the largest value on overflow, otherwise the value or its
negation in 64 bits. -/
def strtoulValue (negative : Bool) (v : Nat) : Nat :=
  if 2 ^ 64 ≤ v then 2 ^ 64 - 1
  else if negative then (2 ^ 64 - v) % 2 ^ 64
  else v

/-- The text `(nil)`, its letters in either case, at the head of the input:
the input that follows it. -/
def scanNil (s : Bytes) : Option Bytes :=
  match s with
  | 40 :: n :: i :: l :: 41 :: t =>
    if (n = 110 ∨ n = 78) ∧ (i = 105 ∨ i = 73) ∧ (l = 108 ∨ l = 76) then some t else none
  | _ => none

/-- An unsigned integer conversion (`%p` with `hex` and `pointer`, `%lx` and
`%x` with `hex`, `%lu` with neither): the value and the input that follows, or
`none` for a matching failure. -/
def scanUnsigned (hex pointer : Bool) (s : Bytes) : Option (Nat × Bytes) :=
  let s1 := s.dropWhile isspace
  let sign : Option Bool × Bytes :=
    match s1 with
    | 45 :: t => (some true, t)
    | 43 :: t => (some false, t)
    | _ => (none, s1)
  let negative : Bool := sign.1 == some true
  let digit := if hex then hexDigit else decDigit
  let base := if hex then 16 else 10
  match sign.2 with
  | 48 :: t =>
    let t1 : Bytes :=
      if hex then
        match t with
        | 120 :: u => u
        | 88 :: u => u
        | _ => t
      else t
    let r := scanDigits digit base t1 0 0
    some (strtoulValue negative r.2.1, r.2.2)
  | s2 =>
    let r := scanDigits digit base s2 0 0
    if r.1 = 0 then
      if pointer = true ∧ sign.1 = none then (scanNil s2).map (fun t => (0, t)) else none
    else some (strtoulValue negative r.2.1, r.2.2)

/-- The conversion `%4s`: one to four characters that are not white space. -/
def scanWord4 (s : Bytes) : Option Bytes :=
  let s1 := s.dropWhile isspace
  let word := (s1.takeWhile (fun c => !isspace c)).take 4
  if word = [] then none else some (s1.drop word.length)

/-- A literal character of the format. -/
def scanLiteral (c : Nat) (s : Bytes) : Option Bytes :=
  match s with
  | d :: t => if d = c then some t else none
  | [] => none

/-- The call `sscanf(buffer, "%p-%p %4s %lx %x:%x %lu %n", ...)`. -/
def sscanfMaps (buffer : Bytes) : ScanResult :=
  match scanUnsigned true true buffer with
  | none => ⟨if buffer.dropWhile isspace = [] then -1 else 0, 0, 0, 0⟩
  | some (addrLow, s1) =>
    match scanLiteral 45 s1 with
    | none => ⟨1, addrLow, 0, 0⟩
    | some s2 =>
      match scanUnsigned true true s2 with
      | none => ⟨1, addrLow, 0, 0⟩
      | some (addrHigh, s3) =>
        match scanWord4 s3 with
        | none => ⟨2, addrLow, addrHigh, 0⟩
        | some s4 =>
          match scanUnsigned true false s4 with
          | none => ⟨3, addrLow, addrHigh, 0⟩
          | some (_, s5) =>
            match scanUnsigned true false s5 with
            | none => ⟨4, addrLow, addrHigh, 0⟩
            | some (_, s6) =>
              match scanLiteral 58 s6 with
              | none => ⟨5, addrLow, addrHigh, 0⟩
              | some s7 =>
                match scanUnsigned true false s7 with
                | none => ⟨5, addrLow, addrHigh, 0⟩
                | some (_, s8) =>
                  match scanUnsigned false false s8 with
                  | none => ⟨6, addrLow, addrHigh, 0⟩
                  | some (_, s9) =>
                    ⟨7, addrLow, addrHigh, buffer.length - (s9.dropWhile isspace).length⟩

/-! ## Sample configurations and services -/

/-- A configuration of a Linux build with signed `char` and `dladdr`.  The
numeric values of the header constants are sample values; the general
theorems hold for every configuration. -/
def linuxConfig : Config where
  PLATFORM_DLL_EXTENSION := bytes ".so"
  OMR_HAVE_DLADDR := true
  charSigned := true
  RTLD_LAZY := 1
  RTLD_NOW := 2
  RTLD_NOLOAD := 4
  OMRPORT_SLOPEN_DECORATE := 1
  OMRPORT_SLOPEN_LAZY := 2
  OMRPORT_SLOPEN_OPEN_EXECUTABLE := 8
  OMRPORT_SLOPEN_NO_LOAD := 16
  OMRPORT_SL_NOT_FOUND := 1
  OMRPORT_SL_INVALID := 2
  OMRPORT_SL_UNSUPPORTED := 3
  EsIsFile := 1
  OMRPORT_ERROR_OPFAILED := -5
  OMRPORT_ERROR_NOT_SUPPORTED_ON_THIS_PLATFORM := -48

/-- A system in which no library can be loaded and no file exists: every
`dlopen` answers null with the error text `text`, `dladdr` reports `fname` as
the location of the port library, `file_attr` answers `attr`, and
`error_set_last_error_with_message` returns the code it is given. -/
def failingSystem (text : Bytes) (fname : Option Bytes) (attr : Int) : OMRPortLibrary where
  dlopen := fun _ _ _ => 0
  dlclose := fun _ _ => 0
  dladdr := fun _ => fname
  dlerror := fun _ => some text
  mbtowc := mbtowcAscii
  file_attr := fun _ _ => attr
  nls_lookup_message := fun _ dflt => dflt
  error_set_last_error_with_message := fun _ code _ => code

/-- A visitor that accepts every entry. -/
def acceptAll : Callback Unit := fun _ _ _ u => (0, u)

/-- A visitor that counts its calls in `userData` and answers 7 on the call
number `n` and 0 on the others. -/
def stopAt (n : Nat) : Callback Nat := fun _ _ _ k => (if k + 1 = n then 7 else 0, k + 1)

/-- A maps file with the given lines, opened as descriptor 3. -/
def mapsFile (lines : List Bytes) : MapsFile where
  fd := 3
  lines := lines
  error_last_error_number := fun _ => 0
  sscanf := sscanfMaps

/-- An image with two segments of the same extent, loaded with slide `0x10`. -/
def sampleImage : Image where
  name := some (bytes "/usr/lib/libSystem.dylib")
  header := some ⟨MH_MAGIC_64, 2, fun _ => ⟨LC_SEGMENT_64, 72, 0x1000, 0x2000⟩⟩
  slide := 0x10

/-- The map line of the example, with its line terminator. -/
def libfooLine : Bytes :=
  bytes "00400000-00452000 r-xp 00000000 08:01 123456   /usr/lib/libfoo.so" ++ [10]

/-! ## Definitions used to state the properties -/

/-- The bytes the encoder produces for one wide character. -/
def utf8Bytes (ch : Int) : Bytes :=
  if ch < 0x80 then [toChar ch]
  else if ch < 0x800 then
    [(0xc0 ||| ((ch.toNat >>> 6) &&& 0x1f)) % 256, (0x80 ||| (ch.toNat &&& 0x3f)) % 256]
  else
    [(0xe0 ||| ((ch.toNat >>> 12) &&& 0x0f)) % 256,
     (0x80 ||| ((ch.toNat >>> 6) &&& 0x3f)) % 256,
     (0x80 ||| (ch.toNat &&& 0x3f)) % 256]

/-- Consecutive stores of a list of bytes from index `i`. -/
def pokes (m : Mem) (i : Nat) : Bytes → Mem
  | [] => m
  | b :: bs => pokes (poke m i b) (i + 1) bs

/-- The characters the loop of `convertWithMBTOWC` hands to its encoder when
the buffer never fills: the decoded characters without the carriage returns
and with every newline replaced by a space. -/
def decodedChars (cfg : Config) (mbtowc : Bytes → Int × Int) : Nat → Bytes → List Int
  | 0, _ => []
  | fuel + 1, walk =>
    match decodeStep cfg mbtowc walk with
    | none => []
    | some (ch, walk1) =>
      if ch = 13 then decodedChars cfg mbtowc fuel walk1
      else (if ch = 10 then 32 else ch) :: decodedChars cfg mbtowc fuel walk1

/-- Everything up to and including the last `/` of a name; empty if the name
has none. -/
def directoryOf (name : Bytes) : Bytes := (name.reverse.dropWhile (fun b => b != 47)).reverse

/-- What follows the last `/` of a name; the whole name if it has none. -/
def baseNameOf (name : Bytes) : Bytes := (name.reverse.takeWhile (fun b => b != 47)).reverse

/-- The decorated name: the directory of `name`, then `lib`, the base name and
the platform extension. -/
def decoratedName (cfg : Config) (name : Bytes) : Bytes :=
  directoryOf name ++ bytes "lib" ++ baseNameOf name ++ cfg.PLATFORM_DLL_EXTENSION

/-- Whether the flags ask for a decorated name: `!openExec && decorate`. -/
def decorates (cfg : Config) (flags : Nat) : Bool :=
  !OMR_ARE_ALL_BITS_SET flags cfg.OMRPORT_SLOPEN_OPEN_EXECUTABLE &&
    OMR_ARE_ALL_BITS_SET flags cfg.OMRPORT_SLOPEN_DECORATE

/-- The name a load is asked for: the decorated name when the flags ask for
decoration, the requested name otherwise. -/
def targetName (cfg : Config) (name : Bytes) (flags : Nat) : Bytes :=
  if decorates cfg flags then decoratedName cfg name else name

/-- The file argument of the first `dlopen`: null for the executable. -/
def targetFile (cfg : Config) (name : Bytes) (flags : Nat) : Option Bytes :=
  if OMR_ARE_ALL_BITS_SET flags cfg.OMRPORT_SLOPEN_OPEN_EXECUTABLE then none
  else some (targetName cfg name flags)

/-- The resolution mode of the flags: `RTLD_LAZY` or `RTLD_NOW`. -/
def loadMode (cfg : Config) (flags : Nat) : Nat :=
  if OMR_ARE_ALL_BITS_SET flags cfg.OMRPORT_SLOPEN_LAZY then cfg.RTLD_LAZY else cfg.RTLD_NOW

/-- The code a failed load is classified with, from the answer of `file_attr`
for the target name: `INVALID` for a regular file, `NOT_FOUND` otherwise. -/
def failureCode (cfg : Config) (attr : Int) : Int :=
  if cfg.EsIsFile = attr then (cfg.OMRPORT_SL_INVALID : Int) else (cfg.OMRPORT_SL_NOT_FOUND : Int)

/-- The `dlopen` calls of a trace, in order: file name, mode and answer. -/
def dlopenCalls (tr : List Event) : List (Option Bytes × Nat × Nat) :=
  tr.filterMap fun e =>
    match e with
    | Event.dlopen file mode handle => some (file, mode, handle)
    | _ => none

/-- The answer of the last `dlopen` call of a trace. -/
def lastHandle (tr : List Event) : Option Nat :=
  (dlopenCalls tr).getLast?.map fun c => c.2.2

/-- The default texts of the messages looked up in a trace, in order. -/
def nlsLookups (tr : List Event) : List Bytes :=
  tr.filterMap fun e =>
    match e with
    | Event.nls_lookup_message defaultText _ => some defaultText
    | _ => none

/-- An entry handed to the visitor: path, low address, high address. -/
abbrev Entry := Bytes × Nat × Nat

/-- The visitor calls of a trace, in order, each with the visitor's result. -/
def callbackCalls (tr : List LibEvent) : List (Entry × Nat) :=
  tr.filterMap fun e =>
    match e with
    | LibEvent.callback path addrLow addrHigh result => some ((path, addrLow, addrHigh), result)
    | _ => none

/-- The enumerable entries of a maps file: one for every line that has a
terminator, scans with count 7 and has `/` at the path offset. -/
def linuxEntries (env : MapsFile) (lines : List Bytes) : List Entry :=
  lines.filterMap fun buffer =>
    if 10 ∈ buffer ∧ (env.sscanf buffer).count = 7 ∧
        buffer.getD (env.sscanf buffer).pathOffset 0 = 47 then
      some (buffer.drop (env.sscanf buffer).pathOffset, (env.sscanf buffer).addrLow,
        (env.sscanf buffer).addrHigh)
    else none

/-- The segments of one image: of the first `n` load commands from index
`cmd`, up to the first one of size 0, those that are `LC_SEGMENT_64`. -/
def segmentEntries (imageName : Bytes) (slide : Int) (commands : Nat → LoadCommand) :
    Nat → Nat → List Entry
  | 0, _ => []
  | n + 1, cmd =>
    if 0 = (commands cmd).cmdsize then []
    else if LC_SEGMENT_64 = (commands cmd).cmd then
      (imageName, ((((commands cmd).vmaddr : Int) + slide) % (2 : Int) ^ 64).toNat,
        (((((commands cmd).vmaddr : Int) + slide) % (2 : Int) ^ 64).toNat
          + (commands cmd).vmsize) % 2 ^ 64)
        :: segmentEntries imageName slide commands n (cmd + 1)
    else segmentEntries imageName slide commands n (cmd + 1)

/-- The enumerable entries of one image: none unless it has a name starting
with `/` and a header with the 64-bit magic. -/
def imageEntries (image : Image) : List Entry :=
  match image.name, image.header with
  | some imageName, some header =>
    if imageName.getD 0 0 = 47 ∧ header.magic = MH_MAGIC_64 then
      segmentEntries imageName image.slide header.commands header.ncmds 0
    else []
  | _, _ => []

/-- The enumerable entries of the images known to dyld. -/
def osxEntries (images : List Image) : List Entry := images.flatMap imageEntries

/-- The calls a visitor receives when it is called on every entry of a list in
order, each call starting from the `userData` the call before it left: the
entry and the answer of the visitor. -/
def replay {σ : Type} (callback : Callback σ) : List Entry → σ → List (Entry × Nat)
  | [], _ => []
  | e :: es, userData =>
    (e, (callback e.1 e.2.1 e.2.2 userData).1)
      :: replay callback es (callback e.1 e.2.1 e.2.2 userData).2

/-- The `userData` a visitor leaves after it was called on every entry of a
list in order. -/
def stateAfter {σ : Type} (callback : Callback σ) : List Entry → σ → σ
  | [], userData => userData
  | e :: es, userData => stateAfter callback es (callback e.1 e.2.1 e.2.2 userData).2

/-- The relation between the value returned by an enumeration, its visitor
calls and the enumerable entries: either every call answered 0, every entry
was visited in order and the value is 0; or the calls are a prefix of the
entries, the last call is the only one with a non-zero answer, and the value
is that answer. -/
def StopsAtFirstNonZero (rv : Nat) (calls : List (Entry × Nat)) (entries : List Entry) : Prop :=
  ((∀ c ∈ calls, c.2 = 0) ∧ rv = 0 ∧ calls.map Prod.fst = entries) ∨
  (∃ before last, calls = before ++ [last] ∧ (∀ c ∈ before, c.2 = 0) ∧ last.2 ≠ 0 ∧
    rv = last.2 ∧ calls.map Prod.fst <+: entries)

/-- An enumeration of `entries` with the visitor `callback`, started with
`userData`, that returned `rv`, recorded `calls` and left `final`: the recorded
calls are the first calls of the visitor on the entries, with the answers the
visitor gives; `final` is what the visitor left after them; and the
enumeration stopped at the first non-zero answer. -/
def Visits {σ : Type} (callback : Callback σ) (userData : σ) (entries : List Entry)
    (rv : Nat) (calls : List (Entry × Nat)) (final : σ) : Prop :=
  calls <+: replay callback entries userData ∧
    final = stateAfter callback (calls.map Prod.fst) userData ∧
    StopsAtFirstNonZero rv calls entries

/-! # Theorems -/

/-! ## Stores into a buffer -/

theorem poke_same (m : Mem) (i v : Nat) : poke m i v i = v := by
  simp [poke]

theorem poke_other (m : Mem) (i v j : Nat) (h : j ≠ i) : poke m i v j = m j := by
  simp [poke, h]

theorem pokes_append (a b : Bytes) (m : Mem) (i : Nat) :
    pokes m i (a ++ b) = pokes (pokes m i a) (i + a.length) b := by
  induction a generalizing m i with
  | nil => simp [pokes]
  | cons x xs ih =>
    show pokes (poke m i x) (i + 1) (xs ++ b) = pokes (pokes (poke m i x) (i + 1) xs) _ b
    have hlen : i + (x :: xs).length = i + 1 + xs.length := by
      simp only [List.length_cons]; omega
    rw [ih, hlen]

theorem pokes_below (bs : Bytes) (m : Mem) (i j : Nat) (h : j < i) : pokes m i bs j = m j := by
  induction bs generalizing m i with
  | nil => rfl
  | cons x xs ih =>
    simp only [pokes]
    rw [ih _ _ (by omega), poke_other _ _ _ _ (by omega)]

theorem pokes_above (bs : Bytes) (m : Mem) (i j : Nat) (h : i + bs.length ≤ j) :
    pokes m i bs j = m j := by
  induction bs generalizing m i with
  | nil => rfl
  | cons x xs ih =>
    simp only [pokes]
    simp only [List.length_cons] at h
    rw [ih _ _ (by omega), poke_other _ _ _ _ (by omega)]

theorem pokes_at (bs : Bytes) (m : Mem) (i j : Nat) (h : j < bs.length) :
    pokes m i bs (i + j) = bs.getD j 0 := by
  induction bs generalizing m i j with
  | nil => simp at h
  | cons x xs ih =>
    simp only [pokes]
    cases j with
    | zero =>
      rw [pokes_below _ _ _ _ (by omega)]
      simp [poke]
    | succ k =>
      simp only [List.length_cons] at h
      have := ih (poke m i x) (i + 1) k (by omega)
      rw [show i + (k + 1) = i + 1 + k by omega, this]
      simp

/-- Reading back a string that was stored without NUL bytes and is followed
by a NUL. -/
theorem readFrom_stored (bs : Bytes) (m : Mem) (n i : Nat) (hn : bs.length < n)
    (hnz : ∀ b ∈ bs, b ≠ 0) (hbs : ∀ j, j < bs.length → m (i + j) = bs.getD j 0)
    (hz : m (i + bs.length) = 0) : readFrom m n i = bs := by
  induction bs generalizing n i with
  | nil =>
    cases n with
    | zero => rfl
    | succ k => simp [readFrom] at hz ⊢; exact hz
  | cons x xs ih =>
    cases n with
    | zero => simp at hn
    | succ k =>
      have hx : m i = x := by simpa using hbs 0 (by simp)
      have hx0 : x ≠ 0 := hnz x (by simp)
      simp only [readFrom, hx, hx0, if_false]
      congr 1
      apply ih
      · simp only [List.length_cons] at hn; omega
      · intro b hb; exact hnz b (by simp [hb])
      · intro j hj
        have := hbs (j + 1) (by simp; omega)
        rw [show i + 1 + j = i + (j + 1) by omega, this]
        simp
      · simp only [List.length_cons] at hz
        rw [show i + 1 + xs.length = i + (xs.length + 1) by omega]
        exact hz

/-! ## The conversion loop -/

theorem decodeStep_shorter (cfg : Config) (mbtowc : Bytes → Int × Int) (walk walk1 : Bytes)
    (ch : Int) (h : decodeStep cfg mbtowc walk = some (ch, walk1)) :
    walk1.length < walk.length := by
  unfold decodeStep at h
  cases walk with
  | nil => simp at h
  | cons b rest =>
    simp only at h
    split_ifs at h with h1 h2
    · simp only [Option.some.injEq, Prod.mk.injEq] at h
      rw [← h.2]; simp
    · simp only [Option.some.injEq, Prod.mk.injEq] at h
      rw [← h.2]
      simp only [List.length_drop, List.length_cons]
      omega

theorem encodeStep_eq (endp : Nat) (ch : Int) (out : Nat) (mem : Mem) :
    encodeStep endp ch out mem =
      if endp < out + (utf8Bytes ch).length then none
      else some (out + (utf8Bytes ch).length, pokes mem out (utf8Bytes ch)) := by
  unfold encodeStep utf8Bytes
  split_ifs <;> simp_all [pokes] <;> omega

/-- The loop ends within the allowed iterations, and what it stores is the
concatenation of the whole encodings of the first `k` characters, where `k`
is the number of characters up to the first whose encoding does not fit. -/
theorem convertLoop_spec (cfg : Config) (mbtowc : Bytes → Int × Int) (endp : Nat) :
    ∀ (fuel : Nat) (walk : Bytes) (out : Nat) (mem : Mem), walk.length < fuel → out ≤ endp →
      ∃ k, k ≤ (decodedChars cfg mbtowc fuel walk).length ∧
        convertLoop cfg mbtowc endp fuel walk out mem =
          some (out + (((decodedChars cfg mbtowc fuel walk).take k).flatMap utf8Bytes).length,
            pokes mem out (((decodedChars cfg mbtowc fuel walk).take k).flatMap utf8Bytes)) ∧
        out + (((decodedChars cfg mbtowc fuel walk).take k).flatMap utf8Bytes).length ≤ endp ∧
        (∀ c, (decodedChars cfg mbtowc fuel walk)[k]? = some c →
          endp < out + (((decodedChars cfg mbtowc fuel walk).take k).flatMap utf8Bytes).length
            + (utf8Bytes c).length) := by
  intro fuel
  induction fuel with
  | zero => intro walk out mem h; omega
  | succ n ih =>
    intro walk out mem hfuel hout
    unfold convertLoop decodedChars
    cases hd : decodeStep cfg mbtowc walk with
    | none => exact ⟨0, by simp [pokes, hout]⟩
    | some p =>
      obtain ⟨ch, walk1⟩ := p
      have hlen := decodeStep_shorter cfg mbtowc walk walk1 ch hd
      simp only
      by_cases hcr : ch = 13
      · simp only [hcr, if_true]
        exact ih walk1 out mem (by omega) hout
      · simp only [hcr, if_false]
        rw [encodeStep_eq]
        by_cases hfit : endp < out + (utf8Bytes (if ch = 10 then 32 else ch)).length
        · refine ⟨0, by simp, ?_, by simpa using hout, ?_⟩
          · simp [hfit, pokes]
          · intro c hc
            simp only [List.getElem?_cons_zero, Option.some.injEq] at hc
            subst hc
            simpa using hfit
        · simp only [hfit, if_false]
          obtain ⟨k, hk, hrun, hbound, hnext⟩ :=
            ih walk1 (out + (utf8Bytes (if ch = 10 then 32 else ch)).length)
              (pokes mem out (utf8Bytes (if ch = 10 then 32 else ch))) (by omega) (by omega)
          refine ⟨k + 1, by simpa using hk, ?_, ?_, ?_⟩
          · rw [hrun]
            simp only [List.take_succ_cons, List.flatMap_cons, List.length_append, pokes_append,
              Nat.add_assoc]
          · simp only [List.take_succ_cons, List.flatMap_cons, List.length_append]
            omega
          · intro c hc
            simp only [List.getElem?_cons_succ] at hc
            have := hnext c hc
            simp only [List.take_succ_cons, List.flatMap_cons, List.length_append]
            omega


/-- The conversion returns, stores a NUL inside the buffer and leaves the
memory after the buffer as it was. -/
theorem convertWithMBTOWC_bounds (cfg : Config) (mbtowc : Bytes → Int × Int) (error : Bytes)
    (errBuf : Mem) (bufLen : Nat) (h : 1 ≤ bufLen) :
    ∃ m out, convertWithMBTOWC cfg mbtowc error errBuf bufLen = some m ∧ out ≤ bufLen - 1 ∧
      m out = 0 ∧ ∀ i, bufLen ≤ i → m i = errBuf i := by
  obtain ⟨k, _, hrun, hbound, _⟩ :=
    convertLoop_spec cfg mbtowc (bufLen - 1) (error.length + 1) error 0 errBuf (by omega)
      (by omega)
  unfold convertWithMBTOWC
  rw [hrun]
  refine ⟨_, _, rfl, hbound, poke_same _ _ _, ?_⟩
  intro i hi
  rw [poke_other _ _ _ _ (by omega), pokes_above _ _ _ _ (by omega)]

theorem copyMessage_bounds (errBuf : Mem) (error : Bytes) (bufLen : Nat) (h : 1 ≤ bufLen) :
    copyMessage errBuf error bufLen (bufLen - 1) = 0 ∧
      ∀ i, bufLen ≤ i → copyMessage errBuf error bufLen i = errBuf i := by
  refine ⟨poke_same _ _ _, ?_⟩
  intro i hi
  unfold copyMessage
  rw [poke_other _ _ _ _ (by omega)]
  simp [strncpy, Nat.not_lt.mpr hi]

/-- C5: for every answer of `dlerror` (null, empty or any byte string, whatever
the decoder makes of its bytes) `getDLError` returns with the memory from index
`bufLen` on unchanged, and for `bufLen >= 1` with a NUL at an index of at most
`bufLen - 1`; for `bufLen = 0` the buffer is unchanged. -/
theorem getDLError_stays_within_buffer (cfg : Config) (pl : OMRPortLibrary) (tr : List Event)
    (errBuf : Mem) (bufLen : Nat) :
    ∃ m tr1, getDLError cfg pl tr errBuf bufLen = some (m, tr1) ∧
      (∀ i, bufLen ≤ i → m i = errBuf i) ∧
      (1 ≤ bufLen → ∃ i, i ≤ bufLen - 1 ∧ m i = 0) ∧
      (bufLen = 0 → m = errBuf) := by
  unfold getDLError
  by_cases h0 : bufLen = 0
  · exact ⟨errBuf, tr, by simp [h0], fun _ _ => rfl, fun h => by omega, fun _ => rfl⟩
  · rw [if_neg h0]
    by_cases hnone : pl.dlerror tr = none ∨ pl.dlerror tr = some []
    · simp only [hnone, if_true]
      obtain ⟨hz, hframe⟩ :=
        copyMessage_bounds errBuf (pl.nls_lookup_message (tr ++ [Event.dlerror (pl.dlerror tr)])
          (bytes "Unknown error")) bufLen (by omega)
      exact ⟨_, _, rfl, hframe, fun _ => ⟨bufLen - 1, le_refl _, hz⟩, fun h => absurd h h0⟩
    · simp only [hnone, if_false]
      obtain ⟨m, out, hm, hout, hz, hframe⟩ :=
        convertWithMBTOWC_bounds cfg pl.mbtowc ((pl.dlerror tr).getD []) errBuf bufLen (by omega)
      rw [hm]
      exact ⟨_, _, rfl, hframe, fun _ => ⟨out, hout, hz⟩, fun h => absurd h h0⟩

/-- The loop on an ASCII string without carriage return and newline: as many
bytes as fit are stored unchanged. -/
theorem convertLoop_ascii (cfg : Config) (mbtowc : Bytes → Int × Int) (endp : Nat)
    (hmb : ∀ b rest, 1 ≤ b → b < 128 → mbtowc (b :: rest) = (1, (b : Int))) :
    ∀ (fuel : Nat) (s : Bytes) (out : Nat) (mem : Mem), s.length < fuel → out ≤ endp →
      (∀ b ∈ s, 1 ≤ b ∧ b < 128 ∧ b ≠ 13 ∧ b ≠ 10) →
      convertLoop cfg mbtowc endp fuel s out mem =
        some (out + (s.take (endp - out)).length, pokes mem out (s.take (endp - out))) := by
  intro fuel
  induction fuel with
  | zero => intro s out mem h; omega
  | succ n ih =>
    intro s out mem hfuel hout hs
    cases s with
    | nil => simp [convertLoop, decodeStep, pokes]
    | cons b rest =>
      obtain ⟨hb1, hb2, hb3, hb4⟩ := hs b (by simp)
      have hd : decodeStep cfg mbtowc (b :: rest) = some ((b : Int), rest) := by
        simp [decodeStep, hmb b rest hb1 hb2]
      have henc : utf8Bytes (b : Int) = [b] := by
        have : (b : Int) < 128 := by omega
        simp only [utf8Bytes, this, if_true, toChar]
        congr 1
        omega
      have h13 : ¬ ((b : Int) = 13) := by omega
      have h10 : ¬ ((b : Int) = 10) := by omega
      unfold convertLoop
      simp only [hd, h13, h10, if_false]
      rw [encodeStep_eq, henc]
      simp only [List.length_singleton]
      by_cases hfit : endp < out + 1
      · have : endp - out = 0 := by omega
        simp [hfit, this, pokes]
      · simp only [hfit, if_false]
        simp only [List.length_cons] at hfuel
        rw [ih rest (out + 1) _ (by omega) (by omega) (fun c hc => hs c (by simp [hc]))]
        have : endp - out = (endp - (out + 1)) + 1 := by omega
        rw [this]
        simp only [List.take_succ_cons, List.length_cons, pokes]
        rw [show ∀ x, out + 1 + x = out + (x + 1) from fun x => by omega]

/-- C9: an ASCII string without NUL, carriage return and newline, decoded byte
by byte to itself, is normalized to itself when it fits `bufLen - 1` bytes and
to its first `bufLen - 1` bytes otherwise. -/
theorem convertWithMBTOWC_ascii_unchanged (cfg : Config) (mbtowc : Bytes → Int × Int)
    (s : Bytes) (errBuf : Mem) (bufLen : Nat) (hlen : 1 ≤ bufLen)
    (hs : ∀ b ∈ s, 1 ≤ b ∧ b < 128 ∧ b ≠ 13 ∧ b ≠ 10)
    (hmb : ∀ b rest, 1 ≤ b → b < 128 → mbtowc (b :: rest) = (1, (b : Int))) :
    ∃ m, convertWithMBTOWC cfg mbtowc s errBuf bufLen = some m ∧
      (s.length ≤ bufLen - 1 → readCStr m bufLen = s) ∧
      (bufLen - 1 < s.length → readCStr m bufLen = s.take (bufLen - 1)) := by
  have hrun := convertLoop_ascii cfg mbtowc (bufLen - 1) hmb (s.length + 1) s 0 errBuf
    (by omega) (by omega) hs
  unfold convertWithMBTOWC
  rw [hrun]
  simp only [Nat.zero_add, Nat.sub_zero]
  have hread : readCStr (poke (pokes errBuf 0 (s.take (bufLen - 1)))
      (s.take (bufLen - 1)).length 0) bufLen = s.take (bufLen - 1) := by
    unfold readCStr
    apply readFrom_stored
    · simp only [List.length_take]; omega
    · intro b hb
      have := (hs b (List.mem_of_mem_take hb)).1
      omega
    · intro j hj
      rw [Nat.zero_add, poke_other _ _ _ _ (by omega)]
      simpa using pokes_at _ errBuf 0 j hj
    · rw [Nat.zero_add]; exact poke_same _ _ _
  refine ⟨_, rfl, ?_, ?_⟩
  · intro hle
    rw [hread, List.take_of_length_le hle]
  · intro _
    exact hread

/-- Witness for C9: the text `abc` in a buffer of three bytes. -/
theorem convertWithMBTOWC_ascii_unchanged_witness :
    ∃ m, convertWithMBTOWC linuxConfig mbtowcAscii [97, 98, 99] (fun _ => 0) 3 = some m ∧
      ([97, 98, 99].length ≤ 3 - 1 → readCStr m 3 = [97, 98, 99]) ∧
      (3 - 1 < [97, 98, 99].length → readCStr m 3 = [97, 98, 99].take (3 - 1)) :=
  convertWithMBTOWC_ascii_unchanged linuxConfig mbtowcAscii [97, 98, 99] (fun _ => 0) 3
    (by decide) (by simp)
    (by
      intro b rest h1 h2
      simp [mbtowcAscii, h2])

/-! ## Name decoration -/

theorem strrchrFrom_append (c : Nat) (a b : Bytes) (i : Nat) (last : Option Nat) :
    strrchrFrom c (a ++ b) i last = strrchrFrom c b (i + a.length) (strrchrFrom c a i last) := by
  induction a generalizing i last with
  | nil => simp [strrchrFrom]
  | cons x xs ih =>
    show strrchrFrom c (xs ++ b) (i + 1) (if x = c then some i else last) = _
    have hlen : i + (x :: xs).length = i + 1 + xs.length := by
      simp only [List.length_cons]; omega
    rw [ih, hlen]
    rfl

theorem strrchr_concat (t : Bytes) (b c : Nat) :
    strrchr (t ++ [b]) c = if b = c then some t.length else strrchr t c := by
  unfold strrchr
  rw [strrchrFrom_append]
  simp [strrchrFrom]

theorem directoryOf_concat (t : Bytes) (b : Nat) :
    directoryOf (t ++ [b]) = if b = 47 then t ++ [b] else directoryOf t := by
  unfold directoryOf
  by_cases h : b = 47 <;> simp [List.dropWhile_cons, h]

theorem baseNameOf_concat (t : Bytes) (b : Nat) :
    baseNameOf (t ++ [b]) = if b = 47 then [] else baseNameOf t ++ [b] := by
  unfold baseNameOf
  by_cases h : b = 47 <;> simp [List.takeWhile_cons, h]

/-- The index found by `strrchr` splits a name into its directory and its
base name. -/
theorem strrchr_split (name : Bytes) :
    (∀ p, strrchr name 47 = some p →
      p < name.length ∧ name.take (p + 1) = directoryOf name ∧
        name.drop (p + 1) = baseNameOf name) ∧
    (strrchr name 47 = none → 47 ∉ name ∧ directoryOf name = [] ∧ baseNameOf name = name) := by
  induction name using List.reverseRecOn with
  | nil => simp [strrchr, strrchrFrom, directoryOf, baseNameOf]
  | append_singleton t b ih =>
    rw [strrchr_concat, directoryOf_concat, baseNameOf_concat]
    by_cases h : b = 47
    · simp [h]
    · simp only [h, if_false]
      constructor
      · intro p hp
        obtain ⟨hlt, htake, hdrop⟩ := ih.1 p hp
        refine ⟨by simp; omega, ?_, ?_⟩
        · rw [List.take_append_of_le_length (by omega), htake]
        · rw [List.drop_append_of_le_length (by omega), hdrop]
      · intro hn
        obtain ⟨hmem, hdir, hbase⟩ := ih.2 hn
        refine ⟨?_, hdir, by rw [hbase]⟩
        simp only [List.mem_append, List.mem_singleton, not_or]
        exact ⟨hmem, fun e => h e.symm⟩

theorem strrchr_of_mem (name : Bytes) (h : 47 ∈ name) :
    ∃ p, strrchr name 47 = some p ∧ name.take (p + 1) = directoryOf name ∧
      p + 1 = (directoryOf name).length := by
  cases hs : strrchr name 47 with
  | none => exact absurd h ((strrchr_split name).2 hs).1
  | some p =>
    obtain ⟨hlt, htake, _⟩ := (strrchr_split name).1 p hs
    refine ⟨p, rfl, htake, ?_⟩
    rw [← htake, List.length_take]
    omega

/-- The text composed at lines 150-156 is the decorated name. -/
theorem mangle_eq (cfg : Config) (name : Bytes) :
    mangle cfg name = str_printf (MAX_STRING_LENGTH + 1) (decoratedName cfg name) := by
  unfold mangle decoratedName
  cases hs : strrchr name 47 with
  | none =>
    obtain ⟨_, hdir, hbase⟩ := (strrchr_split name).2 hs
    simp [hdir, hbase]
  | some p =>
    obtain ⟨_, htake, hdrop⟩ := (strrchr_split name).1 p hs
    simp [htake, hdrop]

theorem mangle_length (cfg : Config) (name : Bytes) :
    (mangle cfg name).1 = (decoratedName cfg name).length := by
  rw [mangle_eq]; rfl

theorem mangle_name (cfg : Config) (name : Bytes)
    (h : (decoratedName cfg name).length < MAX_STRING_LENGTH) :
    (mangle cfg name).2 = decoratedName cfg name := by
  rw [mangle_eq]
  unfold MAX_STRING_LENGTH at h
  simp only [str_printf, MAX_STRING_LENGTH]
  exact List.take_of_length_le (by omega)

/-! ## Opening and closing -/

theorem dlopenCalls_append (a b : List Event) :
    dlopenCalls (a ++ b) = dlopenCalls a ++ dlopenCalls b := by
  simp [dlopenCalls, List.filterMap_append]

/-- The events of `getDLError`: it returns, makes no load call and does not
look up the buffer-exceeded message. -/
theorem getDLError_trace (cfg : Config) (pl : OMRPortLibrary) (tr : List Event)
    (errBuf : Mem) (bufLen : Nat) :
    ∃ m ev, getDLError cfg pl tr errBuf bufLen = some (m, tr ++ ev) ∧ dlopenCalls ev = [] ∧
      bufferExceededText ∉ nlsLookups ev := by
  unfold getDLError
  by_cases h0 : bufLen = 0
  · exact ⟨errBuf, [], by simp [h0], rfl, by simp [nlsLookups]⟩
  · rw [if_neg h0]
    by_cases hnone : pl.dlerror tr = none ∨ pl.dlerror tr = some []
    · simp only [hnone, if_true]
      refine ⟨copyMessage errBuf
        (pl.nls_lookup_message (tr ++ [Event.dlerror (pl.dlerror tr)]) (bytes "Unknown error"))
        bufLen,
        [Event.dlerror (pl.dlerror tr), Event.nls_lookup_message (bytes "Unknown error")
        (pl.nls_lookup_message (tr ++ [Event.dlerror (pl.dlerror tr)]) (bytes "Unknown error"))],
        by simp, by simp [dlopenCalls], ?_⟩
      have hne : bufferExceededText ≠ bytes "Unknown error" := by decide
      simpa [nlsLookups] using hne
    · simp only [hnone, if_false]
      obtain ⟨m, _, hm, _⟩ :=
        convertWithMBTOWC_bounds cfg pl.mbtowc ((pl.dlerror tr).getD []) errBuf bufLen (by omega)
      rw [hm]
      exact ⟨_, [Event.dlerror (pl.dlerror tr)], rfl, by simp [dlopenCalls],
        by simp [nlsLookups]⟩

/-- The failure exit: the error text of `getDLError` is recorded with the code
chosen by `file_attr`. -/
theorem reportLoadFailure_eq (cfg : Config) (pl : OMRPortLibrary) (tr : List Event)
    (errBuf : Mem) (openName : Bytes) :
    ∃ buf ev, getDLError cfg pl tr errBuf MAX_ERR_BUF_LENGTH = some (buf, tr ++ ev) ∧
      dlopenCalls ev = [] ∧ bufferExceededText ∉ nlsLookups ev ∧
      reportLoadFailure cfg pl tr errBuf openName =
        some ⟨toUintptr (pl.error_set_last_error_with_message
            (tr ++ ev ++ [Event.file_attr openName (pl.file_attr (tr ++ ev) openName)])
            (failureCode cfg (pl.file_attr (tr ++ ev) openName))
            (readCStr buf MAX_ERR_BUF_LENGTH)), none,
          tr ++ ev ++ [Event.file_attr openName (pl.file_attr (tr ++ ev) openName)] ++
            [Event.error_set_last_error_with_message
              (failureCode cfg (pl.file_attr (tr ++ ev) openName))
              (readCStr buf MAX_ERR_BUF_LENGTH)
              (pl.error_set_last_error_with_message
                (tr ++ ev ++ [Event.file_attr openName (pl.file_attr (tr ++ ev) openName)])
                (failureCode cfg (pl.file_attr (tr ++ ev) openName))
                (readCStr buf MAX_ERR_BUF_LENGTH))]⟩ := by
  obtain ⟨buf, ev, hget, hcalls, hnls⟩ := getDLError_trace cfg pl tr errBuf MAX_ERR_BUF_LENGTH
  refine ⟨buf, ev, hget, hcalls, hnls, ?_⟩
  unfold reportLoadFailure failureCode
  rw [hget]
  by_cases hattr : cfg.EsIsFile = pl.file_attr (tr ++ ev) openName
  · simp only [hattr, if_true]
  · simp only [hattr, if_false]

/-- The load attempts: either the fallback path does not fit, after one failed
load and the `dladdr` query, or `handle` is the answer of the last load made. -/
theorem loadLibrary_cases (cfg : Config) (pl : OMRPortLibrary) (tr : List Event)
    (openName : Bytes) (openExec : Bool) (mode : Nat) :
    (∃ fname, loadLibrary cfg pl tr openName openExec mode =
        LoadOutcome.exceeded (tr ++ [Event.dlopen (if openExec then none else some openName)
          mode 0, Event.dladdr (some fname)])) ∨
    (∃ h ev, loadLibrary cfg pl tr openName openExec mode =
        LoadOutcome.loaded h (tr ++ Event.dlopen (if openExec then none else some openName) mode
          (pl.dlopen tr (if openExec then none else some openName) mode) :: ev) ∧
      lastHandle (Event.dlopen (if openExec then none else some openName) mode
          (pl.dlopen tr (if openExec then none else some openName) mode) :: ev) = some h ∧
      nlsLookups ev = []) := by
  unfold loadLibrary
  generalize (if openExec = true then none else some openName) = file
  simp only []
  by_cases hcond : cfg.OMR_HAVE_DLADDR = true ∧ pl.dlopen tr file mode = 0 ∧ openExec = false
  · rw [if_pos hcond]
    obtain ⟨_, hzero, _⟩ := hcond
    cases hinfo : pl.dladdr (tr ++ [Event.dlopen file mode (pl.dlopen tr file mode)]) with
    | none =>
      right
      exact ⟨pl.dlopen tr file mode, [Event.dladdr none], by simp,
        by simp [lastHandle, dlopenCalls], by simp [nlsLookups]⟩
    | some fname =>
      simp only []
      cases hsep : strrchr fname 47 with
      | none =>
        right
        exact ⟨pl.dlopen tr file mode, [Event.dladdr (some fname)], by simp,
          by simp [lastHandle, dlopenCalls], by simp [nlsLookups]⟩
      | some dirSep =>
        simp only []
        by_cases hlong : MAX_STRING_LENGTH < dirSep + 1 + strlen openName + 1
        · left
          rw [if_pos hlong]
          exact ⟨fname, by simp [hzero]⟩
        · right
          rw [if_neg hlong]
          simp only [List.append_assoc, List.cons_append, List.nil_append]
          split_ifs with h1
          · exact ⟨_, _, rfl, by simp [lastHandle, dlopenCalls], by simp [nlsLookups]⟩
          · exact ⟨_, _, rfl, by simp [lastHandle, dlopenCalls], by simp [nlsLookups]⟩
  · right
    rw [if_neg hcond]
    exact ⟨pl.dlopen tr file mode, [], by simp, by simp [lastHandle, dlopenCalls], by simp [nlsLookups]⟩

/-- C2, as stated, fails: closing descriptor 0 in a system where nothing else
goes wrong returns 1, not 0. -/
theorem close_null_returns_one :
    omrsl_close_shared_library linuxConfig (failingSystem (bytes "x") none 0) [] (fun _ => 0) 0
        = some (1, []) ∧
      (omrsl_close_shared_library linuxConfig (failingSystem (bytes "x") none 0) []
        (fun _ => 0) 0).map Prod.fst ≠ some 0 := by
  decide

/-- C2, amended: `omrsl_close_shared_library` called with descriptor 0 makes no
call at all, in particular no `dlclose`, and returns 1, the initial value of
`result`, for every port library state. -/
theorem close_null_descriptor (cfg : Config) (pl : OMRPortLibrary) (tr : List Event)
    (errBuf : Mem) :
    omrsl_close_shared_library cfg pl tr errBuf 0 = some (1, tr) := by
  simp [omrsl_close_shared_library]

/-- The name opened is the target name, when the decorated name fits. -/
theorem openName_eq (cfg : Config) (name : Bytes) (flags : Nat)
    (hfits : ¬ (decorates cfg flags = true ∧ (mangle cfg name).1 ≥ MAX_STRING_LENGTH)) :
    (if decorates cfg flags = true then (mangle cfg name).2 else name)
      = targetName cfg name flags := by
  unfold targetName
  by_cases hdec : decorates cfg flags = true
  · simp only [hdec, if_true]
    apply mangle_name
    rw [← mangle_length]
    simp only [hdec, true_and, ge_iff_le, not_le] at hfits
    exact hfits
  · simp [hdec]

/-- The function in terms of the target name, target file and load mode of
its arguments. -/
theorem open_eq (cfg : Config) (pl : OMRPortLibrary) (tr : List Event) (errBuf : Mem)
    (name : Bytes) (flags : Nat) :
    omrsl_open_shared_library cfg pl tr errBuf name flags =
      if decorates cfg flags = true ∧ MAX_STRING_LENGTH ≤ (decoratedName cfg name).length then
        some ⟨cfg.OMRPORT_SL_UNSUPPORTED, none, tr⟩
      else if OMR_ARE_ALL_BITS_SET flags cfg.OMRPORT_SLOPEN_NO_LOAD = true then
        some ⟨0, some (pl.dlopen tr (targetFile cfg name flags)
            (cfg.RTLD_NOLOAD ||| loadMode cfg flags)),
          tr ++ [Event.dlopen (targetFile cfg name flags) (cfg.RTLD_NOLOAD ||| loadMode cfg flags)
            (pl.dlopen tr (targetFile cfg name flags) (cfg.RTLD_NOLOAD ||| loadMode cfg flags))]⟩
      else
        match loadLibrary cfg pl tr (targetName cfg name flags)
            (OMR_ARE_ALL_BITS_SET flags cfg.OMRPORT_SLOPEN_OPEN_EXECUTABLE)
            (loadMode cfg flags) with
        | LoadOutcome.exceeded tr1 =>
          some ⟨toUintptr (pl.error_set_last_error_with_message
              (tr1 ++ [Event.nls_lookup_message bufferExceededText
                (pl.nls_lookup_message tr1 bufferExceededText)])
              cfg.OMRPORT_SL_INVALID
              (readCStr (copyMessage errBuf (pl.nls_lookup_message tr1 bufferExceededText)
                MAX_ERR_BUF_LENGTH) MAX_ERR_BUF_LENGTH)), none,
            tr1 ++ [Event.nls_lookup_message bufferExceededText
                (pl.nls_lookup_message tr1 bufferExceededText)] ++
              [Event.error_set_last_error_with_message cfg.OMRPORT_SL_INVALID
                (readCStr (copyMessage errBuf (pl.nls_lookup_message tr1 bufferExceededText)
                  MAX_ERR_BUF_LENGTH) MAX_ERR_BUF_LENGTH)
                (pl.error_set_last_error_with_message
                  (tr1 ++ [Event.nls_lookup_message bufferExceededText
                    (pl.nls_lookup_message tr1 bufferExceededText)])
                  cfg.OMRPORT_SL_INVALID
                  (readCStr (copyMessage errBuf (pl.nls_lookup_message tr1 bufferExceededText)
                    MAX_ERR_BUF_LENGTH) MAX_ERR_BUF_LENGTH))]⟩
        | LoadOutcome.loaded handle tr1 =>
          if handle = 0 then reportLoadFailure cfg pl tr1 errBuf (targetName cfg name flags)
          else some ⟨0, some handle, tr1⟩ := by
  unfold omrsl_open_shared_library
  simp only []
  by_cases hover : decorates cfg flags = true ∧ (mangle cfg name).1 ≥ MAX_STRING_LENGTH
  · have hover1 := hover
    rw [mangle_length] at hover1
    rw [if_pos hover1]
    unfold decorates at hover
    rw [if_pos hover]
  · have hover1 := hover
    rw [mangle_length] at hover1
    rw [if_neg hover1]
    have hname := openName_eq cfg name flags hover
    unfold decorates at hover hname
    rw [if_neg hover, hname]
    rfl

/-- C1, as stated, fails: with `NO_LOAD` set and a `dlopen` that answers null,
the function returns 0, the success code, with descriptor 0. -/
theorem open_no_load_null_returns_zero :
    omrsl_open_shared_library linuxConfig (failingSystem (bytes "x") none 0) [] (fun _ => 0)
        (bytes "foo") linuxConfig.OMRPORT_SLOPEN_NO_LOAD
      = some ⟨0, some 0, [Event.dlopen (some (bytes "foo")) 6 0]⟩ := by
  decide

/-- C1, amended: for every name and every flag set that includes `NO_LOAD`
whose decorated name, if one is asked for, fits the buffer: if the
`RTLD_NOLOAD` `dlopen` of the target answers null, the function makes that one
call and no further load attempt, stores 0 through `descriptor` and returns 0. -/
theorem open_no_load_null (cfg : Config) (pl : OMRPortLibrary) (tr : List Event)
    (errBuf : Mem) (name : Bytes) (flags : Nat)
    (hnoload : OMR_ARE_ALL_BITS_SET flags cfg.OMRPORT_SLOPEN_NO_LOAD = true)
    (hfits : decorates cfg flags = true → (decoratedName cfg name).length < MAX_STRING_LENGTH)
    (hnull : pl.dlopen tr (targetFile cfg name flags)
      (cfg.RTLD_NOLOAD ||| loadMode cfg flags) = 0) :
    omrsl_open_shared_library cfg pl tr errBuf name flags =
      some ⟨0, some 0, tr ++ [Event.dlopen (targetFile cfg name flags)
        (cfg.RTLD_NOLOAD ||| loadMode cfg flags) 0]⟩ := by
  have hfits1 : ¬ (decorates cfg flags = true ∧
      MAX_STRING_LENGTH ≤ (decoratedName cfg name).length) := by
    rintro ⟨hdec, hge⟩
    have := hfits hdec
    omega
  rw [open_eq, if_neg hfits1, if_pos hnoload, hnull]

/-- Witness for C1, amended: the library `foo` is not loaded. -/
theorem open_no_load_null_witness :
    omrsl_open_shared_library linuxConfig (failingSystem (bytes "x") none 0) [] (fun _ => 0)
        (bytes "foo") 16 =
      some ⟨0, some 0, [] ++ [Event.dlopen (targetFile linuxConfig (bytes "foo") 16)
        (linuxConfig.RTLD_NOLOAD ||| loadMode linuxConfig 16) 0]⟩ :=
  open_no_load_null linuxConfig (failingSystem (bytes "x") none 0) [] (fun _ => 0)
    (bytes "foo") 16 (by decide) (by decide) (by decide)

/-- C4: for every name opened with `DECORATE` set and `OPEN_EXECUTABLE` clear,
with `d` the directory of the name followed by `lib`, the base name and the
platform extension: if `d` has 1024 bytes or more the function returns
`UNSUPPORTED` without any call; otherwise it returns and its first call is a
`dlopen` of exactly `d`. -/
theorem open_decorated_name (cfg : Config) (pl : OMRPortLibrary) (tr : List Event)
    (errBuf : Mem) (name : Bytes) (flags : Nat)
    (hdec : OMR_ARE_ALL_BITS_SET flags cfg.OMRPORT_SLOPEN_DECORATE = true)
    (hexec : OMR_ARE_ALL_BITS_SET flags cfg.OMRPORT_SLOPEN_OPEN_EXECUTABLE = false) :
    (MAX_STRING_LENGTH ≤ (decoratedName cfg name).length →
      omrsl_open_shared_library cfg pl tr errBuf name flags =
        some ⟨cfg.OMRPORT_SL_UNSUPPORTED, none, tr⟩) ∧
    ((decoratedName cfg name).length < MAX_STRING_LENGTH →
      ∃ r mode handle rest, omrsl_open_shared_library cfg pl tr errBuf name flags = some r ∧
        r.trace = tr ++ Event.dlopen (some (decoratedName cfg name)) mode handle :: rest) := by
  have hd : decorates cfg flags = true := by simp [decorates, hdec, hexec]
  have htarget : targetName cfg name flags = decoratedName cfg name := by
    simp [targetName, hd]
  have hfile : targetFile cfg name flags = some (decoratedName cfg name) := by
    simp [targetFile, hexec, htarget]
  rw [open_eq, htarget, hfile, hexec]
  constructor
  · intro hlong
    rw [if_pos ⟨hd, hlong⟩]
  · intro hshort
    rw [if_neg (fun h => absurd h.2 (by omega))]
    by_cases hnoload : OMR_ARE_ALL_BITS_SET flags cfg.OMRPORT_SLOPEN_NO_LOAD = true
    · rw [if_pos hnoload]
      exact ⟨_, _, _, [], rfl, rfl⟩
    · rw [if_neg hnoload]
      rcases loadLibrary_cases cfg pl tr (decoratedName cfg name) false (loadMode cfg flags)
        with ⟨fname, hex⟩ | ⟨h, ev, hld, _, _⟩
      · rw [hex]
        simp only [List.append_assoc, List.cons_append, List.nil_append, Bool.false_eq_true,
          if_false]
        exact ⟨_, _, _, _, rfl, rfl⟩
      · rw [hld]
        simp only []
        by_cases hz : h = 0
        · rw [if_pos hz]
          obtain ⟨buf, ev1, _, _, _, hrep⟩ := reportLoadFailure_eq cfg pl
            (tr ++ Event.dlopen (if false = true then none else some (decoratedName cfg name))
              (loadMode cfg flags)
              (pl.dlopen tr (if false = true then none else some (decoratedName cfg name))
                (loadMode cfg flags)) :: ev) errBuf (decoratedName cfg name)
          rw [hrep]
          simp only [List.append_assoc, List.cons_append, List.nil_append, Bool.false_eq_true,
            if_false]
          exact ⟨_, _, _, _, rfl, rfl⟩
        · rw [if_neg hz]
          simp only [Bool.false_eq_true, if_false]
          exact ⟨_, _, _, _, rfl, rfl⟩

/-- Witness for C4: the name `a/foo` with `DECORATE`. -/
theorem open_decorated_name_witness :
    (MAX_STRING_LENGTH ≤ (decoratedName linuxConfig (bytes "a/foo")).length →
      omrsl_open_shared_library linuxConfig (failingSystem (bytes "x") none 0) [] (fun _ => 0)
          (bytes "a/foo") 1 =
        some ⟨linuxConfig.OMRPORT_SL_UNSUPPORTED, none, []⟩) ∧
    ((decoratedName linuxConfig (bytes "a/foo")).length < MAX_STRING_LENGTH →
      ∃ r mode handle rest,
        omrsl_open_shared_library linuxConfig (failingSystem (bytes "x") none 0) []
          (fun _ => 0) (bytes "a/foo") 1 = some r ∧
        r.trace = [] ++ Event.dlopen (some (decoratedName linuxConfig (bytes "a/foo"))) mode
          handle :: rest) :=
  open_decorated_name linuxConfig (failingSystem (bytes "x") none 0) [] (fun _ => 0)
    (bytes "a/foo") 1 (by decide) (by decide)

set_option maxRecDepth 100000 in
/-- C6, as stated, fails: for a name of 1023 bytes and a port library located
in `/`, the only load attempt answers null and `file_attr` does not report a
regular file, yet the function returns the result for `INVALID`, and the
message recorded is the buffer-exceeded text, not the error text of the load. -/
theorem open_buffer_exceeded_is_invalid :
    omrsl_open_shared_library linuxConfig (failingSystem (bytes "x") (some (bytes "/l")) 0) []
        (fun _ => 0) (List.replicate 1023 97) 0 =
      some ⟨linuxConfig.OMRPORT_SL_INVALID, none,
        [Event.dlopen (some (List.replicate 1023 97)) 2 0, Event.dladdr (some (bytes "/l")),
         Event.nls_lookup_message bufferExceededText bufferExceededText,
         Event.error_set_last_error_with_message 2 bufferExceededText 2]⟩ ∧
      failureCode linuxConfig
        ((failingSystem (bytes "x") (some (bytes "/l")) 0).file_attr [] (List.replicate 1023 97))
        = linuxConfig.OMRPORT_SL_NOT_FOUND ∧
      linuxConfig.OMRPORT_SL_INVALID ≠ linuxConfig.OMRPORT_SL_NOT_FOUND ∧
      bufferExceededText ≠ bytes "x" := by
  decide

/-- C6, amended: called without `NO_LOAD`, the function returns; and when its
last load attempt answers null and it does not leave through the
buffer-exceeded exit of the fallback, it returns the last-error result for the
code chosen by `file_attr` on the target name (`INVALID` for a regular file,
`NOT_FOUND` otherwise), and the message recorded with it is the text
`getDLError` left in the error buffer. -/
theorem open_failure_classification (cfg : Config) (pl : OMRPortLibrary) (tr : List Event)
    (errBuf : Mem) (name : Bytes) (flags : Nat)
    (hnoload : OMR_ARE_ALL_BITS_SET flags cfg.OMRPORT_SLOPEN_NO_LOAD = false) :
    ∃ r, omrsl_open_shared_library cfg pl tr errBuf name flags = some r ∧
      (lastHandle (r.trace.drop tr.length) = some 0 →
        bufferExceededText ∉ nlsLookups (r.trace.drop tr.length) →
        ∃ tr1 buf tr2,
          getDLError cfg pl tr1 errBuf MAX_ERR_BUF_LENGTH = some (buf, tr2) ∧
          r = ⟨toUintptr (pl.error_set_last_error_with_message
                (tr2 ++ [Event.file_attr (targetName cfg name flags)
                  (pl.file_attr tr2 (targetName cfg name flags))])
                (failureCode cfg (pl.file_attr tr2 (targetName cfg name flags)))
                (readCStr buf MAX_ERR_BUF_LENGTH)), none,
              tr2 ++ [Event.file_attr (targetName cfg name flags)
                  (pl.file_attr tr2 (targetName cfg name flags)),
                Event.error_set_last_error_with_message
                  (failureCode cfg (pl.file_attr tr2 (targetName cfg name flags)))
                  (readCStr buf MAX_ERR_BUF_LENGTH)
                  (pl.error_set_last_error_with_message
                    (tr2 ++ [Event.file_attr (targetName cfg name flags)
                      (pl.file_attr tr2 (targetName cfg name flags))])
                    (failureCode cfg (pl.file_attr tr2 (targetName cfg name flags)))
                    (readCStr buf MAX_ERR_BUF_LENGTH))]⟩) := by
  rw [open_eq]
  by_cases hover : decorates cfg flags = true ∧
      MAX_STRING_LENGTH ≤ (decoratedName cfg name).length
  · rw [if_pos hover]
    refine ⟨_, rfl, ?_⟩
    intro hnull
    simp [lastHandle, dlopenCalls] at hnull
  · rw [if_neg hover, if_neg (by simp [hnoload])]
    rcases loadLibrary_cases cfg pl tr (targetName cfg name flags)
        (OMR_ARE_ALL_BITS_SET flags cfg.OMRPORT_SLOPEN_OPEN_EXECUTABLE) (loadMode cfg flags)
      with ⟨fname, hex⟩ | ⟨h, ev, hld, hlast, _⟩
    · rw [hex]
      refine ⟨_, rfl, ?_⟩
      intro _ hfit
      simp [nlsLookups] at hfit
    · rw [hld]
      simp only []
      by_cases hz : h = 0
      · rw [if_pos hz]
        obtain ⟨buf, ev1, hget, _, _, hrep⟩ := reportLoadFailure_eq cfg pl
          (tr ++ Event.dlopen
            (if OMR_ARE_ALL_BITS_SET flags cfg.OMRPORT_SLOPEN_OPEN_EXECUTABLE = true then none
              else some (targetName cfg name flags)) (loadMode cfg flags)
            (pl.dlopen tr
              (if OMR_ARE_ALL_BITS_SET flags cfg.OMRPORT_SLOPEN_OPEN_EXECUTABLE = true then none
                else some (targetName cfg name flags)) (loadMode cfg flags)) :: ev)
          errBuf (targetName cfg name flags)
        rw [hrep]
        refine ⟨_, rfl, ?_⟩
        intro _ _
        refine ⟨_, buf, _, hget, ?_⟩
        simp only [List.append_assoc, List.cons_append, List.nil_append]
      · rw [if_neg hz]
        refine ⟨_, rfl, ?_⟩
        intro hnull
        simp only [List.drop_left] at hnull
        rw [hlast] at hnull
        simp only [Option.some.injEq] at hnull
        exact absurd hnull hz

/-- Witness for C6, amended: the library `foo` cannot be loaded and no such
file exists; the run ends with the `NOT_FOUND` result and the error text `x`. -/
theorem open_failure_classification_witness :
    ∃ tr1 buf tr2,
      getDLError linuxConfig (failingSystem (bytes "x") none 0) tr1 (fun _ => 0)
        MAX_ERR_BUF_LENGTH = some (buf, tr2) ∧
      (⟨1, none, [Event.dlopen (some (bytes "foo")) 2 0, Event.dladdr none,
          Event.dlerror (some (bytes "x")), Event.file_attr (bytes "foo") 0,
          Event.error_set_last_error_with_message 1 (bytes "x") 1]⟩ : OpenResult) =
        ⟨toUintptr ((failingSystem (bytes "x") none 0).error_set_last_error_with_message
            (tr2 ++ [Event.file_attr (targetName linuxConfig (bytes "foo") 0)
              ((failingSystem (bytes "x") none 0).file_attr tr2
                (targetName linuxConfig (bytes "foo") 0))])
            (failureCode linuxConfig ((failingSystem (bytes "x") none 0).file_attr tr2
              (targetName linuxConfig (bytes "foo") 0)))
            (readCStr buf MAX_ERR_BUF_LENGTH)), none,
          tr2 ++ [Event.file_attr (targetName linuxConfig (bytes "foo") 0)
              ((failingSystem (bytes "x") none 0).file_attr tr2
                (targetName linuxConfig (bytes "foo") 0)),
            Event.error_set_last_error_with_message
              (failureCode linuxConfig ((failingSystem (bytes "x") none 0).file_attr tr2
                (targetName linuxConfig (bytes "foo") 0)))
              (readCStr buf MAX_ERR_BUF_LENGTH)
              ((failingSystem (bytes "x") none 0).error_set_last_error_with_message
                (tr2 ++ [Event.file_attr (targetName linuxConfig (bytes "foo") 0)
                  ((failingSystem (bytes "x") none 0).file_attr tr2
                    (targetName linuxConfig (bytes "foo") 0))])
                (failureCode linuxConfig ((failingSystem (bytes "x") none 0).file_attr tr2
                  (targetName linuxConfig (bytes "foo") 0)))
                (readCStr buf MAX_ERR_BUF_LENGTH))]⟩ := by
  obtain ⟨r, hr, hclass⟩ := open_failure_classification linuxConfig
    (failingSystem (bytes "x") none 0) [] (fun _ => 0) (bytes "foo") 0 (by decide)
  have hrun : omrsl_open_shared_library linuxConfig (failingSystem (bytes "x") none 0) []
      (fun _ => 0) (bytes "foo") 0 =
      some ⟨1, none, [Event.dlopen (some (bytes "foo")) 2 0, Event.dladdr none,
        Event.dlerror (some (bytes "x")), Event.file_attr (bytes "foo") 0,
        Event.error_set_last_error_with_message 1 (bytes "x") 1]⟩ := by decide
  rw [hrun] at hr
  simp only [Option.some.injEq] at hr
  subst hr
  exact hclass (by decide) (by decide)

/-- C10, as stated, fails: with `DECORATE` set the fallback load is made at
the directory of the port library followed by the decorated name
(`/opt/libfoo.so`), not by the requested name (`/opt/foo`). -/
theorem open_fallback_uses_decorated_name :
    (omrsl_open_shared_library linuxConfig
        (failingSystem (bytes "x") (some (bytes "/opt/libomrport.so")) 0) [] (fun _ => 0)
        (bytes "foo") linuxConfig.OMRPORT_SLOPEN_DECORATE).map
      (fun r => (dlopenCalls r.trace).map (fun c => c.1))
      = some [some (bytes "libfoo.so"), some (bytes "/opt/libfoo.so"),
          some (bytes "libfoo.so")] ∧
      some (directoryOf (bytes "/opt/libomrport.so") ++ bytes "foo") ∉
        [some (bytes "libfoo.so"), some (bytes "/opt/libfoo.so"), some (bytes "libfoo.so")] := by
  decide

/-- C10, amended: without `OPEN_EXECUTABLE` and without `NO_LOAD`, where
`dladdr` is available: if the initial load of the target name (the decorated
name when `DECORATE` is set, the requested name otherwise) fails, the location
reported for the port library contains a `/` and the composed path fits the
buffer, then exactly one load is attempted at the fallback path, which is the
directory of that location followed by the target name; the only other load
after it is the repetition of the initial one when the fallback answers
null. -/
theorem open_fallback_path (cfg : Config) (pl : OMRPortLibrary) (tr : List Event)
    (errBuf : Mem) (name : Bytes) (flags : Nat) (fname : Bytes)
    (hdl : cfg.OMR_HAVE_DLADDR = true)
    (hexec : OMR_ARE_ALL_BITS_SET flags cfg.OMRPORT_SLOPEN_OPEN_EXECUTABLE = false)
    (hnoload : OMR_ARE_ALL_BITS_SET flags cfg.OMRPORT_SLOPEN_NO_LOAD = false)
    (hdeco : decorates cfg flags = true → (decoratedName cfg name).length < MAX_STRING_LENGTH)
    (hfail : pl.dlopen tr (some (targetName cfg name flags)) (loadMode cfg flags) = 0)
    (hloc : pl.dladdr (tr ++ [Event.dlopen (some (targetName cfg name flags))
      (loadMode cfg flags) 0]) = some fname)
    (hsep : 47 ∈ fname)
    (hroom : (directoryOf fname).length + (targetName cfg name flags).length + 1
      ≤ MAX_STRING_LENGTH) :
    ∃ r h1, omrsl_open_shared_library cfg pl tr errBuf name flags = some r ∧
      ((h1 ≠ 0 ∧ dlopenCalls (r.trace.drop tr.length) =
          [(some (targetName cfg name flags), loadMode cfg flags, 0),
           (some (directoryOf fname ++ targetName cfg name flags), loadMode cfg flags, h1)]) ∨
       (∃ h2, dlopenCalls (r.trace.drop tr.length) =
          [(some (targetName cfg name flags), loadMode cfg flags, 0),
           (some (directoryOf fname ++ targetName cfg name flags), loadMode cfg flags, 0),
           (some (targetName cfg name flags), loadMode cfg flags, h2)])) := by
  have hover : ¬ (decorates cfg flags = true ∧
      MAX_STRING_LENGTH ≤ (decoratedName cfg name).length) := by
    rintro ⟨hd, hge⟩
    have := hdeco hd
    omega
  obtain ⟨p, hp, htake, hplen⟩ := strrchr_of_mem fname hsep
  have hroom1 : ¬ (MAX_STRING_LENGTH < p + 1 + strlen (targetName cfg name flags) + 1) := by
    unfold strlen
    omega
  rw [open_eq, if_neg hover, if_neg (by simp [hnoload])]
  have hload : loadLibrary cfg pl tr (targetName cfg name flags)
      (OMR_ARE_ALL_BITS_SET flags cfg.OMRPORT_SLOPEN_OPEN_EXECUTABLE) (loadMode cfg flags) =
      if pl.dlopen (tr ++ [Event.dlopen (some (targetName cfg name flags)) (loadMode cfg flags) 0,
          Event.dladdr (some fname)]) (some (directoryOf fname ++ targetName cfg name flags))
          (loadMode cfg flags) = 0 then
        LoadOutcome.loaded
          (pl.dlopen (tr ++ [Event.dlopen (some (targetName cfg name flags)) (loadMode cfg flags) 0,
            Event.dladdr (some fname),
            Event.dlopen (some (directoryOf fname ++ targetName cfg name flags))
              (loadMode cfg flags) 0]) (some (targetName cfg name flags)) (loadMode cfg flags))
          (tr ++ [Event.dlopen (some (targetName cfg name flags)) (loadMode cfg flags) 0,
            Event.dladdr (some fname),
            Event.dlopen (some (directoryOf fname ++ targetName cfg name flags))
              (loadMode cfg flags) 0,
            Event.dlopen (some (targetName cfg name flags)) (loadMode cfg flags)
              (pl.dlopen (tr ++ [Event.dlopen (some (targetName cfg name flags))
                (loadMode cfg flags) 0, Event.dladdr (some fname),
                Event.dlopen (some (directoryOf fname ++ targetName cfg name flags))
                  (loadMode cfg flags) 0]) (some (targetName cfg name flags))
                (loadMode cfg flags))])
      else
        LoadOutcome.loaded
          (pl.dlopen (tr ++ [Event.dlopen (some (targetName cfg name flags)) (loadMode cfg flags) 0,
            Event.dladdr (some fname)]) (some (directoryOf fname ++ targetName cfg name flags))
            (loadMode cfg flags))
          (tr ++ [Event.dlopen (some (targetName cfg name flags)) (loadMode cfg flags) 0,
            Event.dladdr (some fname),
            Event.dlopen (some (directoryOf fname ++ targetName cfg name flags))
              (loadMode cfg flags)
              (pl.dlopen (tr ++ [Event.dlopen (some (targetName cfg name flags))
                (loadMode cfg flags) 0, Event.dladdr (some fname)])
                (some (directoryOf fname ++ targetName cfg name flags)) (loadMode cfg flags))]) := by
    unfold loadLibrary
    simp only [hexec, Bool.false_eq_true, if_false, hfail, hdl, and_self, if_true, hloc, hp,
      hroom1, htake, List.append_assoc, List.cons_append, List.nil_append]
    split_ifs with h1
    · simp only [h1]
    · rfl
  rw [hload]
  by_cases h1 : pl.dlopen (tr ++ [Event.dlopen (some (targetName cfg name flags))
      (loadMode cfg flags) 0, Event.dladdr (some fname)])
      (some (directoryOf fname ++ targetName cfg name flags)) (loadMode cfg flags) = 0
  · rw [if_pos h1]
    simp only []
    split_ifs with h2
    · obtain ⟨buf, ev1, _, hcalls, _, hrep⟩ := reportLoadFailure_eq cfg pl
        (tr ++ [Event.dlopen (some (targetName cfg name flags)) (loadMode cfg flags) 0,
          Event.dladdr (some fname),
          Event.dlopen (some (directoryOf fname ++ targetName cfg name flags))
            (loadMode cfg flags) 0,
          Event.dlopen (some (targetName cfg name flags)) (loadMode cfg flags)
            (pl.dlopen (tr ++ [Event.dlopen (some (targetName cfg name flags))
              (loadMode cfg flags) 0, Event.dladdr (some fname),
              Event.dlopen (some (directoryOf fname ++ targetName cfg name flags))
                (loadMode cfg flags) 0]) (some (targetName cfg name flags))
              (loadMode cfg flags))])
        errBuf (targetName cfg name flags)
      rw [hrep]
      refine ⟨_, 0, rfl, Or.inr ⟨0, ?_⟩⟩
      simp only [List.append_assoc, List.drop_left, dlopenCalls_append, hcalls]
      simp [dlopenCalls, h2]
    · refine ⟨_, 0, rfl, Or.inr ⟨pl.dlopen (tr ++ [Event.dlopen
          (some (targetName cfg name flags)) (loadMode cfg flags) 0, Event.dladdr (some fname),
          Event.dlopen (some (directoryOf fname ++ targetName cfg name flags))
            (loadMode cfg flags) 0]) (some (targetName cfg name flags)) (loadMode cfg flags), ?_⟩⟩
      simp only [List.drop_left]
      simp [dlopenCalls]
  · rw [if_neg h1]
    simp only [h1, if_false]
    refine ⟨_, _, rfl, Or.inl ⟨h1, ?_⟩⟩
    simp only [List.drop_left]
    simp [dlopenCalls]

/-- Witness for C10, amended: `foo` with `DECORATE`, port library in `/opt/`. -/
theorem open_fallback_path_witness :
    ∃ r h1, omrsl_open_shared_library linuxConfig
        (failingSystem (bytes "x") (some (bytes "/opt/libomrport.so")) 0) [] (fun _ => 0)
        (bytes "foo") 1 = some r ∧
      ((h1 ≠ 0 ∧ dlopenCalls (r.trace.drop ([] : List Event).length) =
          [(some (targetName linuxConfig (bytes "foo") 1), loadMode linuxConfig 1, 0),
           (some (directoryOf (bytes "/opt/libomrport.so") ++
              targetName linuxConfig (bytes "foo") 1), loadMode linuxConfig 1, h1)]) ∨
       (∃ h2, dlopenCalls (r.trace.drop ([] : List Event).length) =
          [(some (targetName linuxConfig (bytes "foo") 1), loadMode linuxConfig 1, 0),
           (some (directoryOf (bytes "/opt/libomrport.so") ++
              targetName linuxConfig (bytes "foo") 1), loadMode linuxConfig 1, 0),
           (some (targetName linuxConfig (bytes "foo") 1), loadMode linuxConfig 1, h2)])) :=
  open_fallback_path linuxConfig
    (failingSystem (bytes "x") (some (bytes "/opt/libomrport.so")) 0) [] (fun _ => 0)
    (bytes "foo") 1 (bytes "/opt/libomrport.so")
    (by decide) (by decide) (by decide) (by decide) (by decide) (by decide) (by decide)
    (by decide)

/-! ## Enumeration -/

theorem callbackCalls_append (a b : List LibEvent) :
    callbackCalls (a ++ b) = callbackCalls a ++ callbackCalls b := by
  simp [callbackCalls, List.filterMap_append]

theorem replay_map_fst {σ : Type} (callback : Callback σ) (es : List Entry) (userData : σ) :
    (replay callback es userData).map Prod.fst = es := by
  induction es generalizing userData with
  | nil => rfl
  | cons e es ih => simp [replay, ih]

theorem stops_nil : StopsAtFirstNonZero 0 [] [] :=
  Or.inl ⟨by simp, rfl, rfl⟩

theorem stops_single (e : Entry) (r : Nat) (es : List Entry) (hr : r ≠ 0) :
    StopsAtFirstNonZero r [(e, r)] (e :: es) :=
  Or.inr ⟨[], (e, r), rfl, by simp, hr, rfl, by simp⟩

theorem stops_cons_zero (rv : Nat) (e : Entry) (cs : List (Entry × Nat)) (es : List Entry)
    (h : StopsAtFirstNonZero rv cs es) : StopsAtFirstNonZero rv ((e, 0) :: cs) (e :: es) := by
  rcases h with ⟨hz, hrv, hmap⟩ | ⟨before, last, hcs, hz, hlast, hrv, hpre⟩
  · left
    refine ⟨?_, hrv, by simp [hmap]⟩
    intro c hc
    rcases List.mem_cons.mp hc with rfl | hc
    · rfl
    · exact hz c hc
  · right
    refine ⟨(e, 0) :: before, last, by simp [hcs], ?_, hlast, hrv, ?_⟩
    · intro c hc
      rcases List.mem_cons.mp hc with rfl | hc
      · rfl
      · exact hz c hc
    · simpa [List.cons_prefix_cons] using hpre

theorem visits_nil {σ : Type} (callback : Callback σ) (userData : σ) :
    Visits callback userData [] 0 [] userData :=
  ⟨by simp [replay], by simp [stateAfter], stops_nil⟩

theorem visits_single {σ : Type} (callback : Callback σ) (userData : σ) (e : Entry)
    (es : List Entry) (hr : (callback e.1 e.2.1 e.2.2 userData).1 ≠ 0) :
    Visits callback userData (e :: es) (callback e.1 e.2.1 e.2.2 userData).1
      [(e, (callback e.1 e.2.1 e.2.2 userData).1)] (callback e.1 e.2.1 e.2.2 userData).2 :=
  ⟨by simp [replay, List.cons_prefix_cons], by simp [stateAfter], stops_single _ _ _ hr⟩

theorem visits_cons_zero {σ : Type} (callback : Callback σ) (userData : σ) (e : Entry)
    (es : List Entry) (rv : Nat) (cs : List (Entry × Nat)) (final : σ)
    (h0 : (callback e.1 e.2.1 e.2.2 userData).1 = 0)
    (h : Visits callback (callback e.1 e.2.1 e.2.2 userData).2 es rv cs final) :
    Visits callback userData (e :: es) rv ((e, 0) :: cs) final := by
  obtain ⟨hpre, hfin, hstop⟩ := h
  refine ⟨?_, ?_, stops_cons_zero _ _ _ _ hstop⟩
  · simp only [replay, h0, List.cons_prefix_cons, true_and]
    exact hpre
  · simpa [stateAfter] using hfin

/-- The loop over the map lines calls the visitor on the entries in order and
stops at the first non-zero answer. -/
theorem readMaps_spec {σ : Type} (env : MapsFile) (callback : Callback σ) :
    ∀ (lines : List Bytes) (userData : σ) (tr : List LibEvent),
      ∃ cs, callbackCalls (readMaps env callback lines 0 userData tr).2.2
          = callbackCalls tr ++ cs ∧
        Visits callback userData (linuxEntries env lines)
          (readMaps env callback lines 0 userData tr).1 cs
          (readMaps env callback lines 0 userData tr).2.1 := by
  intro lines
  induction lines with
  | nil =>
    intro userData tr
    have hnil := visits_nil callback userData
    exact ⟨[], by simp [readMaps], by simpa [readMaps, linuxEntries] using hnil⟩
  | cons buffer rest ih =>
    intro userData tr
    unfold readMaps
    by_cases hnl : 10 ∉ buffer
    · rw [if_pos hnl]
      obtain ⟨cs, hcs, hvis⟩ := ih userData
        (tr ++ [LibEvent.error_set_last_error_with_message (env.error_last_error_number tr)
          truncatedLineText])
      refine ⟨cs, ?_, ?_⟩
      · rw [hcs, callbackCalls_append]
        simp [callbackCalls]
      · have hent : linuxEntries env (buffer :: rest) = linuxEntries env rest := by
          simp only [linuxEntries, List.filterMap_cons]
          rw [if_neg (fun h => hnl h.1)]
        rw [hent]
        exact hvis
    · rw [if_neg hnl]
      simp only []
      by_cases hscan : (env.sscanf buffer).count = 7 ∧
          buffer.getD (env.sscanf buffer).pathOffset 0 = 47
      · rw [if_pos hscan]
        have hent : linuxEntries env (buffer :: rest) =
            (buffer.drop (env.sscanf buffer).pathOffset, (env.sscanf buffer).addrLow,
              (env.sscanf buffer).addrHigh) :: linuxEntries env rest := by
          simp only [linuxEntries, List.filterMap_cons]
          rw [if_pos ⟨not_not.mp hnl, hscan⟩]
        rw [hent]
        by_cases hr : 0 ≠ (callback (buffer.drop (env.sscanf buffer).pathOffset)
            (env.sscanf buffer).addrLow (env.sscanf buffer).addrHigh userData).1
        · rw [if_pos hr]
          refine ⟨[((buffer.drop (env.sscanf buffer).pathOffset, (env.sscanf buffer).addrLow,
            (env.sscanf buffer).addrHigh), _)], ?_,
            visits_single callback userData
              (buffer.drop (env.sscanf buffer).pathOffset, (env.sscanf buffer).addrLow,
                (env.sscanf buffer).addrHigh) _ (Ne.symm hr)⟩
          rw [callbackCalls_append]
          simp [callbackCalls]
        · rw [if_neg hr]
          have hr0 : (callback (buffer.drop (env.sscanf buffer).pathOffset)
              (env.sscanf buffer).addrLow (env.sscanf buffer).addrHigh userData).1 = 0 := by
            simpa using (not_not.mp hr).symm
          rw [hr0]
          obtain ⟨cs, hcs, hvis⟩ := ih
            (callback (buffer.drop (env.sscanf buffer).pathOffset)
              (env.sscanf buffer).addrLow (env.sscanf buffer).addrHigh userData).2
            (tr ++ [LibEvent.callback (buffer.drop (env.sscanf buffer).pathOffset)
              (env.sscanf buffer).addrLow (env.sscanf buffer).addrHigh 0])
          refine ⟨((buffer.drop (env.sscanf buffer).pathOffset, (env.sscanf buffer).addrLow,
            (env.sscanf buffer).addrHigh), 0) :: cs, ?_,
            visits_cons_zero callback userData
              (buffer.drop (env.sscanf buffer).pathOffset, (env.sscanf buffer).addrLow,
                (env.sscanf buffer).addrHigh) _ _ _ _ hr0 hvis⟩
          rw [hcs, callbackCalls_append]
          simp [callbackCalls]
      · rw [if_neg hscan]
        obtain ⟨cs, hcs, hvis⟩ := ih userData tr
        refine ⟨cs, hcs, ?_⟩
        have hent : linuxEntries env (buffer :: rest) = linuxEntries env rest := by
          simp only [linuxEntries, List.filterMap_cons]
          rw [if_neg (fun h => hscan h.2)]
        rw [hent]
        exact hvis

/-- On the Linux strategy every path handed to the visitor is the tail of a
line buffer from the path offset on: a non-empty tail of a buffer that
contains the line terminator, which is never removed. -/
theorem linux_paths_are_buffer_tails {σ : Type} (cfg : Config) (env : MapsFile)
    (callback : Callback σ) (userData : σ) (hopen : env.fd ≠ -1) :
    ∀ c ∈ callbackCalls (omrsl_get_libraries_linux cfg env (some callback) userData).2.2,
      ∃ buffer ∈ env.lines, c.1.1 = buffer.drop (env.sscanf buffer).pathOffset ∧
        (env.sscanf buffer).pathOffset < buffer.length ∧ 10 ∈ buffer := by
  intro c hc
  unfold omrsl_get_libraries_linux at hc
  simp only [] at hc
  rw [if_neg hopen] at hc
  obtain ⟨cs, hcs, _, _, hstop⟩ := readMaps_spec env callback env.lines userData
    [LibEvent.file_open env.fd]
  simp only [] at hc
  rw [callbackCalls_append, hcs] at hc
  simp only [callbackCalls, List.filterMap_cons, List.filterMap_nil, List.nil_append,
    List.append_nil] at hc
  have hpre : cs.map Prod.fst <+: linuxEntries env env.lines := by
    rcases hstop with ⟨_, _, hmap⟩ | ⟨_, _, _, _, _, _, hpre⟩
    · rw [hmap]
    · exact hpre
  have hmem : c.1 ∈ linuxEntries env env.lines :=
    hpre.subset (List.mem_map_of_mem Prod.fst hc)
  simp only [linuxEntries, List.mem_filterMap] at hmem
  obtain ⟨buffer, hbuf, hsome⟩ := hmem
  split_ifs at hsome with hcond
  simp only [Option.some.injEq] at hsome
  refine ⟨buffer, hbuf, by rw [← hsome], ?_, hcond.1⟩
  by_contra hlt
  have := hcond.2.2
  rw [List.getD_eq_default _ _ (by omega)] at this
  omega

/-- The example of the third entry, on both strategies: with four entries and
a visitor that answers 7 on its third call there are exactly three visitor
calls, the answers are 0, 0 and 7, and the function returns 7. -/
theorem get_libraries_third_entry :
    (omrsl_get_libraries_linux linuxConfig
        (mapsFile [libfooLine, libfooLine, libfooLine, libfooLine]) (some (stopAt 3)) 0).1 = 7 ∧
      (callbackCalls (omrsl_get_libraries_linux linuxConfig
        (mapsFile [libfooLine, libfooLine, libfooLine, libfooLine])
        (some (stopAt 3)) 0).2.2).map Prod.snd = [0, 0, 7] ∧
      (omrsl_get_libraries_osx linuxConfig [sampleImage, sampleImage] (some (stopAt 3)) 0).1
        = 7 ∧
      (callbackCalls (omrsl_get_libraries_osx linuxConfig [sampleImage, sampleImage]
        (some (stopAt 3)) 0).2.2).map Prod.snd = [0, 0, 7] ∧
      (osxEntries [sampleImage, sampleImage]).length = 4 := by
  decide

/-- C3, on the code: for the map line of the example, read with its line
terminator, the visitor is called once with low `0x400000` and high
`0x452000`, and the path it receives is `/usr/lib/libfoo.so` followed by the
newline of the line, not the path field alone. -/
theorem get_libraries_path_keeps_newline :
    (omrsl_get_libraries_linux linuxConfig (mapsFile [libfooLine]) (some acceptAll) ()).2.2 =
      [LibEvent.file_open 3,
       LibEvent.callback (bytes "/usr/lib/libfoo.so" ++ [10]) 0x400000 0x452000 0,
       LibEvent.file_close 3] ∧
      bytes "/usr/lib/libfoo.so" ++ [10] ≠ bytes "/usr/lib/libfoo.so" := by
  decide

end Omrsl
